import Mathlib

/-!
goperf: a session of Linux performance counters.

A shallow embedding of `src/goperf.go` and, in the namespace `Perf`, of
`src/perf.go`.

* The package-level variables (`Counters`, `initialized`, `running`, `total`,
  `start`, `items`) are the fields of one record, `Sys`, threaded through every
  function.
* The operating system is an oracle `OS`: each system call appends itself to
  `Sys.trace` and receives the reply the oracle gives for the history so far, so
  a reply may depend on everything that happened before it.
* `time.Now()` is an argument `now` of the functions that read the clock
  (nanoseconds, as an integer); every exported function reads it at most once.
* `panic` is an error result; the state reached at the moment of the panic is
  returned with it, because a recovering caller observes exactly that state.
* `float64` is modelled by `ℚ`: products, sums and integer conversions are
  exact, the rounding of IEEE doubles is not modelled.
* `uint32`/`uint64` are `Nat` reduced modulo `2^32`/`2^64` where an operation can
  leave the range; `time.Duration` is an `Int` wrapped into the `int64` range.
-/

namespace Goperf

/-! ## Constants of `golang.org/x/sys/unix` (Linux `perf_event.h`, `prctl.h`) -/

def PERF_TYPE_HARDWARE : Nat := 0
def PERF_TYPE_SOFTWARE : Nat := 1
def PERF_TYPE_HW_CACHE : Nat := 3

def PERF_COUNT_HW_CPU_CYCLES : Nat := 0
def PERF_COUNT_HW_INSTRUCTIONS : Nat := 1
def PERF_COUNT_HW_CACHE_REFERENCES : Nat := 2
def PERF_COUNT_HW_CACHE_MISSES : Nat := 3
def PERF_COUNT_HW_BRANCH_INSTRUCTIONS : Nat := 4
def PERF_COUNT_HW_BRANCH_MISSES : Nat := 5
def PERF_COUNT_HW_BUS_CYCLES : Nat := 6
def PERF_COUNT_HW_STALLED_CYCLES_FRONTEND : Nat := 7
def PERF_COUNT_HW_STALLED_CYCLES_BACKEND : Nat := 8
def PERF_COUNT_HW_REF_CPU_CYCLES : Nat := 9

def PERF_COUNT_SW_CPU_CLOCK : Nat := 0
def PERF_COUNT_SW_TASK_CLOCK : Nat := 1
def PERF_COUNT_SW_PAGE_FAULTS : Nat := 2
def PERF_COUNT_SW_CONTEXT_SWITCHES : Nat := 3
def PERF_COUNT_SW_CPU_MIGRATIONS : Nat := 4
def PERF_COUNT_SW_PAGE_FAULTS_MIN : Nat := 5
def PERF_COUNT_SW_PAGE_FAULTS_MAJ : Nat := 6
def PERF_COUNT_SW_ALIGNMENT_FAULTS : Nat := 7
def PERF_COUNT_SW_EMULATION_FAULTS : Nat := 8

def PERF_FORMAT_TOTAL_TIME_ENABLED : Nat := 1
def PERF_FORMAT_TOTAL_TIME_RUNNING : Nat := 2
def PERF_FLAG_FD_CLOEXEC : Nat := 8

def PR_TASK_PERF_EVENTS_DISABLE : Nat := 31
def PR_TASK_PERF_EVENTS_ENABLE : Nat := 32

/-! ## Constants of `goperf.go` -/

def pL1D : Nat := 0 -- unix.PERF_COUNT_HW_CACHE_L1D
def pL1I : Nat := 1 -- unix.PERF_COUNT_HW_CACHE_L1I
def pLL : Nat := 2 -- unix.PERF_COUNT_HW_CACHE_LL
def pDTLB : Nat := 3 -- unix.PERF_COUNT_HW_CACHE_DTLB
def pITLB : Nat := 4 -- unix.PERF_COUNT_HW_CACHE_ITLB
def pBPU : Nat := 5 -- unix.PERF_COUNT_HW_CACHE_BPU
def pNODE : Nat := 6 -- unix.PERF_COUNT_HW_CACHE_NODE

def pREAD : Nat := 0 -- unix.PERF_COUNT_HW_CACHE_OP_READ
def pWRITE : Nat := 1 -- unix.PERF_COUNT_HW_CACHE_OP_WRITE
def pPREFETCH : Nat := 2 -- unix.PERF_COUNT_HW_CACHE_OP_PREFETCH

def pACCESS : Nat := 0 -- unix.PERF_COUNT_HW_CACHE_RESULT_ACCESS
def pMISS : Nat := 1 -- unix.PERF_COUNT_HW_CACHE_RESULT_MISS

/-! ## Data model -/

/-- One catalog entry: `type counter struct`. The field `Type` of the source is
`Type_` here, `Type` being reserved. -/
structure counter where
  Name : String
  Type_ : Nat
  Config : Nat
  Enabled : Bool
deriving DecidableEq, Repr, Inhabited

/-- Runtime state of one catalog entry: `type item struct`. -/
structure item where
  event : counter
  value : ℚ
  active : ℚ
  fd : Int
deriving DecidableEq, Repr, Inhabited

/-- The record the kernel writes on a read: `type readFormat struct`, three
`uint64` fields. -/
structure readFormat where
  value : Nat
  timeEnabled : Nat
  timeRunning : Nat
deriving DecidableEq, Repr, Inhabited

/-- The fields of `unix.PerfEventAttr` that `set` fills in. -/
structure PerfEventAttr where
  Type_ : Nat
  Size : Nat
  Config : Nat
  Read_format : Nat
  Bits : Nat
deriving DecidableEq, Repr, Inhabited

/-- A system call issued by the package, with its arguments. -/
inductive Call where
  | PerfEventOpen (attr : PerfEventAttr) (pid cpu groupFd : Int) (flags : Nat)
  | Prctl (option arg2 arg3 arg4 arg5 : Nat)
  | Read (fd : Int) (len : Nat)
  | Close (fd : Int)
deriving DecidableEq, Repr, Inhabited

/-- The operating system as an oracle. Every function receives the history of
calls up to and including the one being answered. `Except.error e`/`some e` is
a failure with errno `e`. A successful `Read` answers the number of bytes read
and the first 24 bytes of the buffer seen as a `readFormat`. -/
structure OS where
  PerfEventOpen : List Call → Except Nat Int
  Prctl : List Call → Option Nat
  Read : List Call → Except Nat (Int × readFormat)
  Close : List Call → Option Nat

/-- A line written by `End` through the message printer. -/
inductive Row where
  | header
  | rule
  | time (seconds : ℚ)
  | counter (name : String) (value : ℚ) (percent : ℚ)
deriving DecidableEq, Repr, Inhabited

/-- The value a function panics with. -/
inductive panicVal where
  | unknownCounter (name : String) -- fmt.Errorf("unknown counter : %s", counter)
  | alreadyStarted -- "Already started"
  | callStartFirst -- "call Start() first"
  | perfEventOpen (err : Nat) -- fmt.Errorf("perfEventOpen : %v", err)
  | prctl (err : Nat) -- fmt.Errorf("prctl : %v", err)
  | failedToRead (err : Nat) -- fmt.Errorf("failed to read counters : %v", err)
  | readLess -- fmt.Errorf("read less than expected")
  | flag (v : Bool) -- panic(initialized), in perf.go only
deriving DecidableEq, Repr, Inhabited

/-- The package-level variables, the system calls issued so far and the lines
printed so far. -/
structure Sys where
  Counters : List counter
  initialized : Bool
  running : Bool
  total : Int
  start : Int
  items : List item
  trace : List Call
  out : List Row
deriving Repr

/-- Result of a function that may panic: normal return or the panic value. -/
abbrev Outcome := Except panicVal Unit

/-- Sequencing: the continuation runs only after a normal return; a panic
propagates with the state it left. -/
def andThen (r : Outcome × Sys) (k : Sys → Outcome × Sys) : Outcome × Sys :=
  match r with
  | (Except.ok _, s) => k s
  | (Except.error e, s) => (Except.error e, s)

/-! ## `int64` durations -/

def maxDuration : Int := 2 ^ 63 - 1
def minDuration : Int := -(2 ^ 63)

/-- Two's-complement wrap of `int64` addition. -/
def wrap64 (x : Int) : Int := (x + 2 ^ 63) % 2 ^ 64 - 2 ^ 63

/-- `t.Sub(u)` of package `time`: the difference, saturated to the range of
`time.Duration`. -/
def timeSub (t u : Int) : Int :=
  if t - u > maxDuration then maxDuration
  else if t - u < minDuration then minDuration
  else t - u

/-! ## Functions of `goperf.go` -/

/-- `func cache(cache uint32, op uint32, result uint32) uint64`. -/
def cache (cache op result : Nat) : Nat :=
  (cache ||| ((op <<< 16) % 2 ^ 32) ||| ((result <<< 16) % 2 ^ 32)) % 2 ^ 32

/-- Initial value of `var Counters`. -/
def Counters : List counter := [
  ⟨"cpu-clock", PERF_TYPE_SOFTWARE, PERF_COUNT_SW_CPU_CLOCK, true⟩,
  ⟨"task-clock", PERF_TYPE_SOFTWARE, PERF_COUNT_SW_TASK_CLOCK, true⟩,
  ⟨"page-faults", PERF_TYPE_SOFTWARE, PERF_COUNT_SW_PAGE_FAULTS, true⟩,
  ⟨"context-switches", PERF_TYPE_SOFTWARE, PERF_COUNT_SW_CONTEXT_SWITCHES, true⟩,
  ⟨"cpu-migrations", PERF_TYPE_SOFTWARE, PERF_COUNT_SW_CPU_MIGRATIONS, true⟩,
  ⟨"page-fault-minor", PERF_TYPE_SOFTWARE, PERF_COUNT_SW_PAGE_FAULTS_MIN, true⟩,
  ⟨"page-fault-major", PERF_TYPE_SOFTWARE, PERF_COUNT_SW_PAGE_FAULTS_MAJ, false⟩,
  ⟨"alignment-faults", PERF_TYPE_SOFTWARE, PERF_COUNT_SW_ALIGNMENT_FAULTS, false⟩,
  ⟨"emulation-faults", PERF_TYPE_SOFTWARE, PERF_COUNT_SW_EMULATION_FAULTS, false⟩,
  ⟨"cpu-cycles", PERF_TYPE_HARDWARE, PERF_COUNT_HW_CPU_CYCLES, true⟩,
  ⟨"instructions", PERF_TYPE_HARDWARE, PERF_COUNT_HW_INSTRUCTIONS, true⟩,
  ⟨"cache-references", PERF_TYPE_HARDWARE, PERF_COUNT_HW_CACHE_REFERENCES, false⟩,
  ⟨"cache-misses", PERF_TYPE_HARDWARE, PERF_COUNT_HW_CACHE_MISSES, true⟩,
  ⟨"branch-instructions", PERF_TYPE_HARDWARE, PERF_COUNT_HW_BRANCH_INSTRUCTIONS, false⟩,
  ⟨"branch-misses", PERF_TYPE_HARDWARE, PERF_COUNT_HW_BRANCH_MISSES, false⟩,
  ⟨"bus-cycles", PERF_TYPE_HARDWARE, PERF_COUNT_HW_BUS_CYCLES, false⟩,
  ⟨"stalled-cycles-frontend", PERF_TYPE_HARDWARE, PERF_COUNT_HW_STALLED_CYCLES_FRONTEND, false⟩,
  ⟨"stalled-cycles-backend", PERF_TYPE_HARDWARE, PERF_COUNT_HW_STALLED_CYCLES_BACKEND, false⟩,
  ⟨"ref-cpu-cycles", PERF_TYPE_HARDWARE, PERF_COUNT_HW_REF_CPU_CYCLES, false⟩,
  ⟨"L1D-read-access", PERF_TYPE_HW_CACHE, cache pL1D pREAD pACCESS, false⟩,
  ⟨"L1D-read-miss", PERF_TYPE_HW_CACHE, cache pL1D pREAD pMISS, true⟩,
  ⟨"L1D-write-access", PERF_TYPE_HW_CACHE, cache pL1D pWRITE pACCESS, false⟩,
  ⟨"L1D-write-miss", PERF_TYPE_HW_CACHE, cache pL1D pWRITE pMISS, false⟩,
  ⟨"L1D-prefetch-access", PERF_TYPE_HW_CACHE, cache pL1D pPREFETCH pACCESS, false⟩,
  ⟨"L1D-prefetch-miss", PERF_TYPE_HW_CACHE, cache pL1D pPREFETCH pMISS, false⟩,
  ⟨"L1I-read-access", PERF_TYPE_HW_CACHE, cache pL1I pREAD pACCESS, false⟩,
  ⟨"L1I-read-miss", PERF_TYPE_HW_CACHE, cache pL1I pREAD pMISS, true⟩,
  ⟨"L1I-write-access", PERF_TYPE_HW_CACHE, cache pL1I pWRITE pACCESS, false⟩,
  ⟨"L1I-write-miss", PERF_TYPE_HW_CACHE, cache pL1I pWRITE pMISS, false⟩,
  ⟨"L1I-prefetch-access", PERF_TYPE_HW_CACHE, cache pL1I pPREFETCH pACCESS, false⟩,
  ⟨"L1I-prefetch-miss", PERF_TYPE_HW_CACHE, cache pL1I pPREFETCH pMISS, false⟩,
  ⟨"LL-read-access", PERF_TYPE_HW_CACHE, cache pLL pREAD pACCESS, false⟩,
  ⟨"LL-read-miss", PERF_TYPE_HW_CACHE, cache pLL pREAD pMISS, false⟩,
  ⟨"LL-write-access", PERF_TYPE_HW_CACHE, cache pLL pWRITE pACCESS, false⟩,
  ⟨"LL-write-miss", PERF_TYPE_HW_CACHE, cache pLL pWRITE pMISS, false⟩,
  ⟨"LL-prefetch-access", PERF_TYPE_HW_CACHE, cache pLL pPREFETCH pACCESS, false⟩,
  ⟨"LL-prefetch-miss", PERF_TYPE_HW_CACHE, cache pLL pPREFETCH pMISS, false⟩,
  ⟨"DTLB-read-access", PERF_TYPE_HW_CACHE, cache pDTLB pREAD pACCESS, false⟩,
  ⟨"DTLB-read-miss", PERF_TYPE_HW_CACHE, cache pDTLB pREAD pMISS, false⟩,
  ⟨"DTLB-write-access", PERF_TYPE_HW_CACHE, cache pDTLB pWRITE pACCESS, false⟩,
  ⟨"DTLB-write-miss", PERF_TYPE_HW_CACHE, cache pDTLB pWRITE pMISS, false⟩,
  ⟨"DTLB-prefetch-access", PERF_TYPE_HW_CACHE, cache pDTLB pPREFETCH pACCESS, false⟩,
  ⟨"DTLB-prefetch-miss", PERF_TYPE_HW_CACHE, cache pDTLB pPREFETCH pMISS, false⟩,
  ⟨"ITLB-read-access", PERF_TYPE_HW_CACHE, cache pITLB pREAD pACCESS, false⟩,
  ⟨"ITLB-read-miss", PERF_TYPE_HW_CACHE, cache pITLB pREAD pMISS, false⟩,
  ⟨"ITLB-write-access", PERF_TYPE_HW_CACHE, cache pITLB pWRITE pACCESS, false⟩,
  ⟨"ITLB-write-miss", PERF_TYPE_HW_CACHE, cache pITLB pWRITE pMISS, false⟩,
  ⟨"ITLB-prefetch-access", PERF_TYPE_HW_CACHE, cache pITLB pPREFETCH pACCESS, false⟩,
  ⟨"ITLB-prefetch-miss", PERF_TYPE_HW_CACHE, cache pITLB pPREFETCH pMISS, false⟩,
  ⟨"BPU-read-access", PERF_TYPE_HW_CACHE, cache pBPU pREAD pACCESS, false⟩,
  ⟨"BPU-read-miss", PERF_TYPE_HW_CACHE, cache pBPU pREAD pMISS, false⟩,
  ⟨"BPU-write-access", PERF_TYPE_HW_CACHE, cache pBPU pWRITE pACCESS, false⟩,
  ⟨"BPU-write-miss", PERF_TYPE_HW_CACHE, cache pBPU pWRITE pMISS, false⟩,
  ⟨"BPU-prefetch-access", PERF_TYPE_HW_CACHE, cache pBPU pPREFETCH pACCESS, false⟩,
  ⟨"BPU-prefetch-miss", PERF_TYPE_HW_CACHE, cache pBPU pPREFETCH pMISS, false⟩,
  ⟨"NODE-read-access", PERF_TYPE_HW_CACHE, cache pNODE pREAD pACCESS, false⟩,
  ⟨"NODE-read-miss", PERF_TYPE_HW_CACHE, cache pNODE pREAD pMISS, false⟩,
  ⟨"NODE-write-access", PERF_TYPE_HW_CACHE, cache pNODE pWRITE pACCESS, false⟩,
  ⟨"NODE-write-miss", PERF_TYPE_HW_CACHE, cache pNODE pWRITE pMISS, false⟩,
  ⟨"NODE-prefetch-access", PERF_TYPE_HW_CACHE, cache pNODE pPREFETCH pACCESS, false⟩,
  ⟨"NODE-prefetch-miss", PERF_TYPE_HW_CACHE, cache pNODE pPREFETCH pMISS, false⟩]

/-- The state of the package when the program starts: `Counters` as declared,
every other variable at its zero value, no call issued, nothing printed. -/
def initSys : Sys where
  Counters := Counters
  initialized := false
  running := false
  total := 0
  start := 0
  items := List.replicate Counters.length ⟨⟨"", 0, 0, false⟩, 0, 0, 0⟩
  trace := []
  out := []

/-- The loop of `clear`: `n` iterations are left, the next index is `i`. -/
def clearLoop (cs : List counter) : Nat → Nat → List item → List item
  | 0, _, its => its
  | n + 1, i, its =>
    clearLoop cs n (i + 1) (its.set i ⟨cs.getD i default, 0, 0, -1⟩)

/-- `func clear()`. -/
def clear (s : Sys) : Sys :=
  { s with
    total := 0
    running := false
    initialized := false
    items := clearLoop s.Counters s.items.length 0 s.items }

/-- The loop of `set`: `n` iterations are left, the next index is `i`. -/
def setLoop (os : OS) : Nat → Nat → Sys → Outcome × Sys
  | 0, _, s => (Except.ok (), s)
  | n + 1, i, s =>
    if !(s.Counters.getD i default).Enabled then
      setLoop os n (i + 1) s
    else
      let t : PerfEventAttr :=
        { Type_ := (s.items.getD i default).event.Type_
          Size := 0
          Config := (s.items.getD i default).event.Config
          Read_format := PERF_FORMAT_TOTAL_TIME_RUNNING ||| PERF_FORMAT_TOTAL_TIME_ENABLED
          Bits := 3 }
      let s1 := { s with trace := s.trace ++ [Call.PerfEventOpen t 0 (-1) (-1) PERF_FLAG_FD_CLOEXEC] }
      match os.PerfEventOpen s1.trace with
      | Except.error err => (Except.error (panicVal.perfEventOpen err), s1)
      | Except.ok fd =>
        setLoop os n (i + 1)
          { s1 with items := s1.items.set i { s1.items.getD i default with fd := fd } }

/-- `func set()`. -/
def set (os : OS) (s : Sys) : Outcome × Sys :=
  setLoop os s.items.length 0 s

/-- The loop shared by `Enable` and `Disable`, which differ in the flag `v`
they store: `n` iterations are left, the next index is `i`. `none` is the fall
through to the panic after the loop. -/
def enableLoop (name : String) (v : Bool) : Nat → Nat → List counter → Option (List counter)
  | 0, _, _ => none
  | n + 1, i, cs =>
    if (cs.getD i default).Name = name then
      some (cs.set i { cs.getD i default with Enabled := v })
    else
      enableLoop name v n (i + 1) cs

/-- `func Enable(counter string)`. -/
def Enable (name : String) (s : Sys) : Outcome × Sys :=
  match enableLoop name true s.Counters.length 0 s.Counters with
  | some cs => (Except.ok (), { s with Counters := cs })
  | none => (Except.error (panicVal.unknownCounter name), s)

/-- `func Disable(counter string)`. -/
def Disable (name : String) (s : Sys) : Outcome × Sys :=
  match enableLoop name false s.Counters.length 0 s.Counters with
  | some cs => (Except.ok (), { s with Counters := cs })
  | none => (Except.error (panicVal.unknownCounter name), s)

/-- `func Start()`, the clock reading `now` being what `time.Now()` returns. -/
def Start (os : OS) (now : Int) (s : Sys) : Outcome × Sys :=
  if s.running then
    (Except.error panicVal.alreadyStarted, s)
  else
    andThen
      (if !s.initialized then
        andThen (set os (clear s)) fun s1 => (Except.ok (), { s1 with initialized := true })
      else
        (Except.ok (), s))
      fun s2 =>
        let s3 := { s2 with trace := s2.trace ++ [Call.Prctl PR_TASK_PERF_EVENTS_ENABLE 0 0 0 0] }
        match os.Prctl s3.trace with
        | some err => (Except.error (panicVal.prctl err), s3)
        | none => (Except.ok (), { s3 with start := now, running := true })

/-- `func Pause()`, the clock reading `now` being what `time.Now()` returns. -/
def Pause (os : OS) (now : Int) (s : Sys) : Outcome × Sys :=
  if !s.initialized then
    (Except.error panicVal.callStartFirst, s)
  else if !s.running then
    (Except.ok (), s)
  else
    let s1 := { s with trace := s.trace ++ [Call.Prctl PR_TASK_PERF_EVENTS_DISABLE 0 0 0 0] }
    match os.Prctl s1.trace with
    | some err => (Except.error (panicVal.prctl err), s1)
    | none =>
      (Except.ok (), { s1 with total := wrap64 (s1.total + timeSub now s1.start), running := false })

/-- Value of the local `n` of `readCounters` once the record `f` has been
examined: `1.0` unless both times are positive, else the `uint64` quotient
converted to `float64`. -/
def readScale (f : readFormat) : ℚ :=
  if f.timeEnabled > 0 ∧ f.timeRunning > 0 then ((f.timeRunning / f.timeEnabled : Nat) : ℚ) else 1

/-- What one iteration of `readCounters` does to `items[i]` on the record
`f`: `active` is stored only inside the `if`, `value` always. -/
def readItem (it : item) (f : readFormat) : item :=
  let it1 : item :=
    if f.timeEnabled > 0 ∧ f.timeRunning > 0 then { it with active := readScale f } else it
  { it1 with value := it1.value + (f.value : ℚ) * readScale f }

/-- The loop of `readCounters`: `n` iterations are left, the next index is
`i`. The buffer `p` has 64 bytes; `unsafe.Sizeof(f)` is 24. -/
def readLoop (os : OS) : Nat → Nat → Sys → Outcome × Sys
  | 0, _, s => (Except.ok (), s)
  | n + 1, i, s =>
    if !(s.Counters.getD i default).Enabled then
      readLoop os n (i + 1) s
    else
      let s1 := { s with trace := s.trace ++ [Call.Read (s.items.getD i default).fd 64] }
      match os.Read s1.trace with
      | Except.error err => (Except.error (panicVal.failedToRead err), s1)
      | Except.ok (rd, f) =>
        if rd ≠ 24 then
          (Except.error panicVal.readLess, s1)
        else
          readLoop os n (i + 1)
            { s1 with items := s1.items.set i (readItem (s1.items.getD i default) f) }

/-- `func readCounters()`. -/
def readCounters (os : OS) (s : Sys) : Outcome × Sys :=
  readLoop os s.items.length 0 s

/-- The loop of `End` that closes the handles; the error of `Close` is
discarded. -/
def closeLoop : Nat → Nat → Sys → Sys
  | 0, _, s => s
  | n + 1, i, s =>
    if (s.Counters.getD i default).Enabled then
      closeLoop n (i + 1) { s with trace := s.trace ++ [Call.Close (s.items.getD i default).fd] }
    else
      closeLoop n (i + 1) s

/-- The loop of `End` that prints one line per enabled counter. -/
def printLoop : Nat → Nat → Sys → Sys
  | 0, _, s => s
  | n + 1, i, s =>
    if (s.Counters.getD i default).Enabled then
      printLoop n (i + 1)
        { s with out := s.out ++ [Row.counter (s.items.getD i default).event.Name
                    (s.items.getD i default).value ((s.items.getD i default).active * 100)] }
    else
      printLoop n (i + 1) s

/-- `func End()`, the clock reading `now` being what `time.Now()` returns in
the call of `Pause`. -/
def End (os : OS) (now : Int) (s : Sys) : Outcome × Sys :=
  if !s.initialized then
    (Except.error panicVal.callStartFirst, s)
  else
    andThen (Pause os now s) fun s1 =>
    andThen (readCounters os s1) fun s2 =>
      let s3 := closeLoop s2.items.length 0 s2
      let s4 := { s3 with out := s3.out ++ [Row.header, Row.rule, Row.time ((s3.total : ℚ) / 1000000000)] }
      let s5 := printLoop s4.items.length 0 s4
      (Except.ok (), clear s5)

/-! ## Sessions: sequences of calls of the exported functions -/

/-- A call of an exported function, with the clock reading it would obtain. -/
inductive Op where
  | Enable (name : String)
  | Disable (name : String)
  | Start (now : Int)
  | Pause (now : Int)
  | End (now : Int)
deriving DecidableEq, Repr, Inhabited

/-- One call: its outcome and the state it leaves. -/
def step (os : OS) : Op → Sys → Outcome × Sys
  | Op.Enable name, s => Enable name s
  | Op.Disable name, s => Disable name s
  | Op.Start now, s => Start os now s
  | Op.Pause now, s => Pause os now s
  | Op.End now, s => End os now s

/-- The state after a sequence of calls. A call that panics leaves the state it
had reached and the sequence goes on from there, as after a `recover`. -/
def run (os : OS) : List Op → Sys → Sys
  | [], s => s
  | op :: ops, s => run os ops (step os op s).2

/-! ## `perf.go`

The second file declares the same package-level variables; its catalog is
called `counters` and is held in the field `Sys.Counters`. The loops of `clear`,
`set`, `Enable`, `Disable`, `readCounters` and `End` have the text of the loops
of `goperf.go` with `counters` for `Counters`, so the loop functions above are
used for them. -/

namespace Perf

def L1D : Nat := 0 -- unix.PERF_COUNT_HW_CACHE_L1D
def L1I : Nat := 1 -- unix.PERF_COUNT_HW_CACHE_L1I
def LL : Nat := 2 -- unix.PERF_COUNT_HW_CACHE_LL
def DTLB : Nat := 3 -- unix.PERF_COUNT_HW_CACHE_DTLB
def ITLB : Nat := 4 -- unix.PERF_COUNT_HW_CACHE_ITLB
def BPU : Nat := 5 -- unix.PERF_COUNT_HW_CACHE_BPU
def NODE : Nat := 6 -- unix.PERF_COUNT_HW_CACHE_NODE

def READ : Nat := 0 -- unix.PERF_COUNT_HW_CACHE_OP_READ
def WRITE : Nat := 1 -- unix.PERF_COUNT_HW_CACHE_OP_WRITE
def PREFETCH : Nat := 2 -- unix.PERF_COUNT_HW_CACHE_OP_PREFETCH

def ACCESS : Nat := 0 -- unix.PERF_COUNT_HW_CACHE_RESULT_ACCESS
def MISS : Nat := 1 -- unix.PERF_COUNT_HW_CACHE_RESULT_MISS

/-- `func cache(cache uint32, op uint32, result uint32) uint64` of `perf.go`. -/
def cache (cache op result : Nat) : Nat :=
  (cache ||| ((op <<< 16) % 2 ^ 32) ||| ((result <<< 16) % 2 ^ 32)) % 2 ^ 32

/-- Initial value of `var counters`. -/
def counters : List counter := [
  ⟨"cpu-clock", PERF_TYPE_SOFTWARE, PERF_COUNT_SW_CPU_CLOCK, true⟩,
  ⟨"task-clock", PERF_TYPE_SOFTWARE, PERF_COUNT_SW_TASK_CLOCK, true⟩,
  ⟨"page-faults", PERF_TYPE_SOFTWARE, PERF_COUNT_SW_PAGE_FAULTS, true⟩,
  ⟨"context-switches", PERF_TYPE_SOFTWARE, PERF_COUNT_SW_CONTEXT_SWITCHES, true⟩,
  ⟨"cpu-migrations", PERF_TYPE_SOFTWARE, PERF_COUNT_SW_CPU_MIGRATIONS, true⟩,
  ⟨"page-fault-minor", PERF_TYPE_SOFTWARE, PERF_COUNT_SW_PAGE_FAULTS_MIN, true⟩,
  ⟨"page-fault-major", PERF_TYPE_SOFTWARE, PERF_COUNT_SW_PAGE_FAULTS_MAJ, false⟩,
  ⟨"alignment-faults", PERF_TYPE_SOFTWARE, PERF_COUNT_SW_ALIGNMENT_FAULTS, false⟩,
  ⟨"emulation-faults", PERF_TYPE_SOFTWARE, PERF_COUNT_SW_EMULATION_FAULTS, false⟩,
  ⟨"cpu-cycles", PERF_TYPE_HARDWARE, PERF_COUNT_HW_CPU_CYCLES, true⟩,
  ⟨"instructions", PERF_TYPE_HARDWARE, PERF_COUNT_HW_INSTRUCTIONS, true⟩,
  ⟨"cache-references", PERF_TYPE_HARDWARE, PERF_COUNT_HW_CACHE_REFERENCES, false⟩,
  ⟨"cache-misses", PERF_TYPE_HARDWARE, PERF_COUNT_HW_CACHE_MISSES, true⟩,
  ⟨"branch-instructions", PERF_TYPE_HARDWARE, PERF_COUNT_HW_BRANCH_INSTRUCTIONS, false⟩,
  ⟨"branch-misses", PERF_TYPE_HARDWARE, PERF_COUNT_HW_BRANCH_MISSES, false⟩,
  ⟨"bus-cycles", PERF_TYPE_HARDWARE, PERF_COUNT_HW_BUS_CYCLES, false⟩,
  ⟨"stalled-cycles-frontend", PERF_TYPE_HARDWARE, PERF_COUNT_HW_STALLED_CYCLES_FRONTEND, false⟩,
  ⟨"stalled-cycles-backend", PERF_TYPE_HARDWARE, PERF_COUNT_HW_STALLED_CYCLES_BACKEND, false⟩,
  ⟨"ref-cpu-cycles", PERF_TYPE_HARDWARE, PERF_COUNT_HW_REF_CPU_CYCLES, false⟩,
  ⟨"L1D-read-access", PERF_TYPE_HW_CACHE, cache L1D READ ACCESS, false⟩,
  ⟨"L1D-read-miss", PERF_TYPE_HW_CACHE, cache L1D READ MISS, true⟩,
  ⟨"L1D-write-access", PERF_TYPE_HW_CACHE, cache L1D WRITE ACCESS, false⟩,
  ⟨"L1D-write-miss", PERF_TYPE_HW_CACHE, cache L1D WRITE MISS, false⟩,
  ⟨"L1D-prefetch-access", PERF_TYPE_HW_CACHE, cache L1D PREFETCH ACCESS, false⟩,
  ⟨"L1D-prefetch-miss", PERF_TYPE_HW_CACHE, cache L1D PREFETCH MISS, false⟩,
  ⟨"L1I-read-access", PERF_TYPE_HW_CACHE, cache L1I READ ACCESS, false⟩,
  ⟨"L1I-read-miss", PERF_TYPE_HW_CACHE, cache L1I READ MISS, true⟩,
  ⟨"L1I-write-access", PERF_TYPE_HW_CACHE, cache L1I WRITE ACCESS, false⟩,
  ⟨"L1I-write-miss", PERF_TYPE_HW_CACHE, cache L1I WRITE MISS, false⟩,
  ⟨"L1I-prefetch-access", PERF_TYPE_HW_CACHE, cache L1I PREFETCH ACCESS, false⟩,
  ⟨"L1I-prefetch-miss", PERF_TYPE_HW_CACHE, cache L1I PREFETCH MISS, false⟩,
  ⟨"LL-read-access", PERF_TYPE_HW_CACHE, cache LL READ ACCESS, false⟩,
  ⟨"LL-read-miss", PERF_TYPE_HW_CACHE, cache LL READ MISS, false⟩,
  ⟨"LL-write-access", PERF_TYPE_HW_CACHE, cache LL WRITE ACCESS, false⟩,
  ⟨"LL-write-miss", PERF_TYPE_HW_CACHE, cache LL WRITE MISS, false⟩,
  ⟨"LL-prefetch-access", PERF_TYPE_HW_CACHE, cache LL PREFETCH ACCESS, false⟩,
  ⟨"LL-prefetch-miss", PERF_TYPE_HW_CACHE, cache LL PREFETCH MISS, false⟩,
  ⟨"DTLB-read-access", PERF_TYPE_HW_CACHE, cache DTLB READ ACCESS, false⟩,
  ⟨"DTLB-read-miss", PERF_TYPE_HW_CACHE, cache DTLB READ MISS, false⟩,
  ⟨"DTLB-write-access", PERF_TYPE_HW_CACHE, cache DTLB WRITE ACCESS, false⟩,
  ⟨"DTLB-write-miss", PERF_TYPE_HW_CACHE, cache DTLB WRITE MISS, false⟩,
  ⟨"DTLB-prefetch-access", PERF_TYPE_HW_CACHE, cache DTLB PREFETCH ACCESS, false⟩,
  ⟨"DTLB-prefetch-miss", PERF_TYPE_HW_CACHE, cache DTLB PREFETCH MISS, false⟩,
  ⟨"ITLB-read-access", PERF_TYPE_HW_CACHE, cache ITLB READ ACCESS, false⟩,
  ⟨"ITLB-read-miss", PERF_TYPE_HW_CACHE, cache ITLB READ MISS, false⟩,
  ⟨"ITLB-write-access", PERF_TYPE_HW_CACHE, cache ITLB WRITE ACCESS, false⟩,
  ⟨"ITLB-write-miss", PERF_TYPE_HW_CACHE, cache ITLB WRITE MISS, false⟩,
  ⟨"ITLB-prefetch-access", PERF_TYPE_HW_CACHE, cache ITLB PREFETCH ACCESS, false⟩,
  ⟨"ITLB-prefetch-miss", PERF_TYPE_HW_CACHE, cache ITLB PREFETCH MISS, false⟩,
  ⟨"BPU-read-access", PERF_TYPE_HW_CACHE, cache BPU READ ACCESS, false⟩,
  ⟨"BPU-read-miss", PERF_TYPE_HW_CACHE, cache BPU READ MISS, false⟩,
  ⟨"BPU-write-access", PERF_TYPE_HW_CACHE, cache BPU WRITE ACCESS, false⟩,
  ⟨"BPU-write-miss", PERF_TYPE_HW_CACHE, cache BPU WRITE MISS, false⟩,
  ⟨"BPU-prefetch-access", PERF_TYPE_HW_CACHE, cache BPU PREFETCH ACCESS, false⟩,
  ⟨"BPU-prefetch-miss", PERF_TYPE_HW_CACHE, cache BPU PREFETCH MISS, false⟩,
  ⟨"NODE-read-access", PERF_TYPE_HW_CACHE, cache NODE READ ACCESS, false⟩,
  ⟨"NODE-read-miss", PERF_TYPE_HW_CACHE, cache NODE READ MISS, false⟩,
  ⟨"NODE-write-access", PERF_TYPE_HW_CACHE, cache NODE WRITE ACCESS, false⟩,
  ⟨"NODE-write-miss", PERF_TYPE_HW_CACHE, cache NODE WRITE MISS, false⟩,
  ⟨"NODE-prefetch-access", PERF_TYPE_HW_CACHE, cache NODE PREFETCH ACCESS, false⟩,
  ⟨"NODE-prefetch-miss", PERF_TYPE_HW_CACHE, cache NODE PREFETCH MISS, false⟩]

/-- The state of the package of `perf.go` when the program starts. -/
def initSys : Sys where
  Counters := counters
  initialized := false
  running := false
  total := 0
  start := 0
  items := List.replicate counters.length ⟨⟨"", 0, 0, false⟩, 0, 0, 0⟩
  trace := []
  out := []

/-- `func clear()` of `perf.go`. -/
def clear (s : Sys) : Sys :=
  { s with
    total := 0
    running := false
    initialized := false
    items := clearLoop s.Counters s.items.length 0 s.items }

/-- `func set()` of `perf.go`. -/
def set (os : OS) (s : Sys) : Outcome × Sys :=
  setLoop os s.items.length 0 s

/-- `func Enable(counter string)` of `perf.go`. -/
def Enable (name : String) (s : Sys) : Outcome × Sys :=
  match enableLoop name true s.Counters.length 0 s.Counters with
  | some cs => (Except.ok (), { s with Counters := cs })
  | none => (Except.error (panicVal.unknownCounter name), s)

/-- `func Disable(counter string)` of `perf.go`. -/
def Disable (name : String) (s : Sys) : Outcome × Sys :=
  match enableLoop name false s.Counters.length 0 s.Counters with
  | some cs => (Except.ok (), { s with Counters := cs })
  | none => (Except.error (panicVal.unknownCounter name), s)

/-- `func Start()` of `perf.go`: there is no test of `running`. -/
def Start (os : OS) (now : Int) (s : Sys) : Outcome × Sys :=
  andThen
    (if !s.initialized then
      andThen (Perf.set os (Perf.clear s)) fun s1 => (Except.ok (), { s1 with initialized := true })
    else
      (Except.ok (), s))
    fun s2 =>
      let s3 := { s2 with trace := s2.trace ++ [Call.Prctl PR_TASK_PERF_EVENTS_ENABLE 0 0 0 0] }
      match os.Prctl s3.trace with
      | some err => (Except.error (panicVal.prctl err), s3)
      | none => (Except.ok (), { s3 with start := now, running := true })

/-- `func Pause()` of `perf.go`. -/
def Pause (os : OS) (now : Int) (s : Sys) : Outcome × Sys :=
  if !s.initialized then
    (Except.error (panicVal.flag s.initialized), s)
  else if !s.running then
    (Except.ok (), s)
  else
    let s1 := { s with trace := s.trace ++ [Call.Prctl PR_TASK_PERF_EVENTS_DISABLE 0 0 0 0] }
    match os.Prctl s1.trace with
    | some err => (Except.error (panicVal.prctl err), s1)
    | none =>
      (Except.ok (), { s1 with total := wrap64 (s1.total + timeSub now s1.start), running := false })

/-- `func readCounters()` of `perf.go`. -/
def readCounters (os : OS) (s : Sys) : Outcome × Sys :=
  readLoop os s.items.length 0 s

/-- `func End()` of `perf.go`. -/
def End (os : OS) (now : Int) (s : Sys) : Outcome × Sys :=
  if !s.initialized then
    (Except.error (panicVal.flag s.initialized), s)
  else
    andThen (Perf.Pause os now s) fun s1 =>
    andThen (Perf.readCounters os s1) fun s2 =>
      let s3 := closeLoop s2.items.length 0 s2
      let s4 := { s3 with out := s3.out ++ [Row.header, Row.rule, Row.time ((s3.total : ℚ) / 1000000000)] }
      let s5 := printLoop s4.items.length 0 s4
      (Except.ok (), Perf.clear s5)

end Perf

/-! ## Vocabulary of the statements -/

/-- The open request `set` issues for a catalog entry. -/
def openCall (c : counter) : Call :=
  Call.PerfEventOpen
    { Type_ := c.Type_
      Size := 0
      Config := c.Config
      Read_format := PERF_FORMAT_TOTAL_TIME_RUNNING ||| PERF_FORMAT_TOTAL_TIME_ENABLED
      Bits := 3 } 0 (-1) (-1) PERF_FLAG_FD_CLOEXEC

/-- The open requests for the enabled entries of a stretch of the catalog, in
catalog order. -/
def armTrace (cs : List counter) : List Call :=
  (cs.filter fun c => c.Enabled).map openCall

/-- The counter a printed line is about; `none` for the three leading lines. -/
def Row.counterName : Row → Option String
  | Row.counter name _ _ => some name
  | _ => none

/-- The items carry the names of the catalog, index by index: the two arrays
have one length (as `[len(Counters)]item` says) and `items[i].event.Name` is
`Counters[i].Name`. -/
def namesAgree (s : Sys) : Prop :=
  s.items.map (fun it => it.event.Name) = s.Counters.map (fun c => c.Name)

instance (s : Sys) : Decidable (namesAgree s) := by
  unfold namesAgree; infer_instance

/-! ## Concrete systems used to exercise the theorems -/

/-- An operating system on which every call succeeds: the handle returned by
an open is the number of calls so far plus two, and every read delivers the
full record `count=1000, timeEnabled=100, timeRunning=50`. -/
def okOS : OS where
  PerfEventOpen := fun tr => Except.ok (tr.length + 2)
  Prctl := fun _ => none
  Read := fun _ => Except.ok (24, ⟨1000, 100, 50⟩)
  Close := fun _ => none

/-- The session after a first `Start` at instant `0` on `okOS`. -/
def runningSys : Sys := (Start okOS 0 initSys).2

/-- The session after `Start` at `0` and `Pause` at `5s` on `okOS`. -/
def pausedSys : Sys := (Pause okOS 5000000000 runningSys).2

/-- An operating system like `okOS` whose reads deliver the full record
`count=1000, timeEnabled=0, timeRunning=0` of a counter never scheduled. -/
def idleOS : OS where
  PerfEventOpen := fun tr => Except.ok (tr.length + 2)
  Prctl := fun _ => none
  Read := fun _ => Except.ok (24, ⟨1000, 0, 0⟩)
  Close := fun _ => none

/-- An operating system like `okOS` whose reads deliver a full record while
the history has fewer than 20 calls and 16 bytes only from then on: on
`pausedSys` the reads for the entries 0 to 5 are full and the read for entry 9,
"cpu-cycles", is short. -/
def shortOS : OS where
  PerfEventOpen := fun tr => Except.ok (tr.length + 2)
  Prctl := fun _ => none
  Read := fun tr =>
    if tr.length < 20 then Except.ok (24, ⟨1000, 100, 100⟩) else Except.ok (16, ⟨1000, 100, 0⟩)
  Close := fun _ => none

/-- An operating system like `okOS` whose reads deliver the full record
`count=1000, timeEnabled=100, timeRunning=100` of a counter always scheduled. -/
def fullOS : OS where
  PerfEventOpen := fun tr => Except.ok (tr.length + 2)
  Prctl := fun _ => none
  Read := fun _ => Except.ok (24, ⟨1000, 100, 100⟩)
  Close := fun _ => none

/-- The calls that leave only "cpu-cycles" and "instructions" enabled in the
catalog as declared. -/
def onlyTwoOps : List Op :=
  [Op.Disable "cpu-clock", Op.Disable "task-clock", Op.Disable "page-faults",
   Op.Disable "context-switches", Op.Disable "cpu-migrations", Op.Disable "page-fault-minor",
   Op.Disable "cache-misses", Op.Disable "L1D-read-miss", Op.Disable "L1I-read-miss"]

/-- The session with only "cpu-cycles" and "instructions" enabled, after
`Start` at instant `0` on `fullOS`. -/
def twoSys : Sys := run fullOS (onlyTwoOps ++ [Op.Start 0]) initSys

/-- The state `End` at `3s` leaves on `twoSys`. -/
def endedSys : Sys := (End fullOS 3000000000 twoSys).2

/-- An operating system that opens like `okOS` and answers a read or a close
of a negative descriptor with the errno 9 (`EBADF`), as the kernel does; a read
of any other descriptor delivers the full record `count=1000, timeEnabled=100,
timeRunning=100`. -/
def ebadfOS : OS where
  PerfEventOpen := fun tr => Except.ok (tr.length + 2)
  Prctl := fun _ => none
  Read := fun tr =>
    match tr.getLast? with
    | some (Call.Read fd _) => if fd < 0 then Except.error 9 else Except.ok (24, ⟨1000, 100, 100⟩)
    | _ => Except.error 9
  Close := fun tr =>
    match tr.getLast? with
    | some (Call.Close fd) => if fd < 0 then some 9 else none
    | _ => some 9

/-- A session in which "bus-cycles", not enabled in the catalog as declared,
is enabled between `Start` and `End`. -/
def lateEnableOps : List Op := [Op.Start 0, Op.Enable "bus-cycles", Op.End 5000000000]

/-! ## Theorems -/

/-! ### Reading an array after a store -/

theorem getD_set_eq {α : Type} (l : List α) (i : Nat) (a d : α) (h : i < l.length) :
    (l.set i a).getD i d = a := by
  simp [List.getD_eq_getElem?_getD, List.getElem?_set, h]

theorem getD_set_ne {α : Type} (l : List α) (i j : Nat) (a d : α) (h : i ≠ j) :
    (l.set i a).getD j d = l.getD j d := by
  simp [List.getD_eq_getElem?_getD, List.getElem?_set, h]

/-! ### The search loop of `Enable` and `Disable` -/

theorem enableLoop_none (name : String) (v : Bool) :
    ∀ (n i : Nat) (cs : List counter), i + n ≤ cs.length →
      (∀ c ∈ cs, c.Name ≠ name) → enableLoop name v n i cs = none := by
  intro n
  induction n with
  | zero => intro i cs _ _; rfl
  | succ n ih =>
    intro i cs hlen hne
    have hi : i < cs.length := by omega
    have hmem : cs.getD i default ∈ cs := by
      rw [List.getD_eq_getElem cs default hi]
      exact List.getElem_mem hi
    have hname : (cs.getD i default).Name ≠ name := hne _ hmem
    simp only [enableLoop, hname, if_false]
    exact ih (i + 1) cs (by omega) hne

theorem enableLoop_first (name : String) (v : Bool) :
    ∀ (n i : Nat) (cs : List counter) (j : Nat), i + n = cs.length → i ≤ j → j < cs.length →
      (cs.getD j default).Name = name →
      (∀ k, i ≤ k → k < j → (cs.getD k default).Name ≠ name) →
      enableLoop name v n i cs = some (cs.set j { cs.getD j default with Enabled := v }) := by
  intro n
  induction n with
  | zero => intro i cs j hlen hij hj _ _; omega
  | succ n ih =>
    intro i cs j hlen hij hj hname hmin
    by_cases hi : (cs.getD i default).Name = name
    · have hji : j = i := by
        by_contra hne
        exact hmin i (le_refl i) (by omega) hi
      subst hji
      simp only [enableLoop, hi, if_true]
    · have hne : i ≠ j := fun h => hi (h ▸ hname)
      simp only [enableLoop, hi, if_false]
      exact ih (i + 1) cs j (by omega) (by omega) hj hname
        (fun k hk hkj => hmin k (by omega) hkj)

/-- A name carried by some entry has a first index in the catalog. -/
theorem exists_first_index (name : String) (cs : List counter)
    (h : ∃ c ∈ cs, c.Name = name) :
    ∃ j, j < cs.length ∧ (cs.getD j default).Name = name ∧
      ∀ k, k < j → (cs.getD k default).Name ≠ name := by
  classical
  have hex : ∃ j, j < cs.length ∧ (cs.getD j default).Name = name := by
    obtain ⟨c, hc, hn⟩ := h
    obtain ⟨j, hj, hjc⟩ := List.getElem_of_mem hc
    exact ⟨j, hj, by rw [List.getD_eq_getElem cs default hj, hjc]; exact hn⟩
  refine ⟨Nat.find hex, (Nat.find_spec hex).1, (Nat.find_spec hex).2, ?_⟩
  intro k hk hkn
  have hlt : k < cs.length := lt_trans hk (Nat.find_spec hex).1
  exact Nat.find_min hex hk ⟨hlt, hkn⟩

theorem getD_set_flag_Name (cs : List counter) (j k : Nat) (v : Bool) :
    ((cs.set j { cs.getD j default with Enabled := v }).getD k default).Name =
      (cs.getD k default).Name := by
  by_cases hjk : j = k
  · subst hjk
    by_cases hj : j < cs.length
    · rw [getD_set_eq _ _ _ _ hj]
    · rw [List.set_eq_of_length_le (by omega)]
  · rw [getD_set_ne _ _ _ _ _ hjk]

theorem set_flag_idem (cs : List counter) (j : Nat) (v : Bool) :
    (cs.set j { cs.getD j default with Enabled := v }).set j
        { (cs.set j { cs.getD j default with Enabled := v }).getD j default with Enabled := v } =
      cs.set j { cs.getD j default with Enabled := v } := by
  by_cases hj : j < cs.length
  · rw [getD_set_eq _ _ _ _ hj, List.set_set]
  · have hle : cs.length ≤ j := by omega
    rw [List.set_eq_of_length_le hle, List.set_eq_of_length_le hle]

/-! ### Arming and the clock -/

theorem wrap64_of_range (x : Int) (h1 : minDuration ≤ x) (h2 : x ≤ maxDuration) :
    wrap64 x = x := by
  unfold wrap64
  unfold minDuration at h1
  unfold maxDuration at h2
  omega

theorem timeSub_of_range (t u : Int) (h1 : 0 ≤ t - u) (h2 : t - u ≤ maxDuration) :
    timeSub t u = t - u := by
  unfold timeSub
  unfold maxDuration at h2
  simp only [maxDuration, minDuration]
  rw [if_neg (by omega), if_neg (by omega)]

/-- What `set` leaves alone, whether it returns or panics. -/
theorem setLoop_frame (os : OS) :
    ∀ (n i : Nat) (s : Sys),
      (setLoop os n i s).2.Counters = s.Counters ∧
      (setLoop os n i s).2.initialized = s.initialized ∧
      (setLoop os n i s).2.running = s.running ∧
      (setLoop os n i s).2.total = s.total ∧
      (setLoop os n i s).2.start = s.start ∧
      (setLoop os n i s).2.out = s.out ∧
      (setLoop os n i s).2.items.length = s.items.length := by
  intro n
  induction n with
  | zero => intro i s; simp [setLoop]
  | succ n ih =>
    intro i s
    unfold setLoop
    split
    · exact ih (i + 1) s
    · dsimp only
      split
      · simp
      · rename_i fd _
        have := ih (i + 1)
          { s with
            trace := s.trace ++ [Call.PerfEventOpen
              { Type_ := (s.items.getD i default).event.Type_
                Size := 0
                Config := (s.items.getD i default).event.Config
                Read_format := PERF_FORMAT_TOTAL_TIME_RUNNING ||| PERF_FORMAT_TOTAL_TIME_ENABLED
                Bits := 3 } 0 (-1) (-1) PERF_FLAG_FD_CLOEXEC]
            items := s.items.set i { s.items.getD i default with fd := fd } }
        simpa using this

/-- When every open succeeds, `set` returns. -/
theorem setLoop_ok (os : OS) (h : ∀ tr, ∃ fd, os.PerfEventOpen tr = Except.ok fd) :
    ∀ (n i : Nat) (s : Sys), (setLoop os n i s).1 = Except.ok () := by
  intro n
  induction n with
  | zero => intro i s; rfl
  | succ n ih =>
    intro i s
    unfold setLoop
    split
    · exact ih (i + 1) s
    · dsimp only
      split
      · rename_i err heq
        obtain ⟨fd, hfd⟩ := h (s.trace ++ [Call.PerfEventOpen
              { Type_ := (s.items.getD i default).event.Type_
                Size := 0
                Config := (s.items.getD i default).event.Config
                Read_format := PERF_FORMAT_TOTAL_TIME_RUNNING ||| PERF_FORMAT_TOTAL_TIME_ENABLED
                Bits := 3 } 0 (-1) (-1) PERF_FLAG_FD_CLOEXEC])
        rw [hfd] at heq
        cases heq
      · exact ih _ _

/-- A first `Start` whose system calls all succeed. -/
theorem Start_uninitialized_ok (os : OS) (now : Int) (s : Sys)
    (hopen : ∀ tr, ∃ fd, os.PerfEventOpen tr = Except.ok fd)
    (hprctl : ∀ tr, os.Prctl tr = none)
    (hi : s.initialized = false) (hr : s.running = false) :
    Start os now s = (Except.ok (),
      { (set os (clear s)).2 with
        initialized := true
        trace := (set os (clear s)).2.trace ++ [Call.Prctl PR_TASK_PERF_EVENTS_ENABLE 0 0 0 0]
        start := now
        running := true }) := by
  have hset : set os (clear s) = (Except.ok (), (set os (clear s)).2) :=
    Prod.ext (setLoop_ok os hopen _ _ _) rfl
  unfold Start
  rw [if_neg (by simp [hr])]
  simp only [hi, Bool.not_false, if_true]
  rw [hset]
  simp only [andThen, hprctl]

/-- `Pause` on a running session whose `prctl` succeeds. -/
theorem Pause_running_ok (os : OS) (now : Int) (s : Sys)
    (hprctl : ∀ tr, os.Prctl tr = none)
    (hi : s.initialized = true) (hr : s.running = true) :
    Pause os now s = (Except.ok (),
      { s with
        trace := s.trace ++ [Call.Prctl PR_TASK_PERF_EVENTS_DISABLE 0 0 0 0]
        total := wrap64 (s.total + timeSub now s.start)
        running := false }) := by
  unfold Pause
  simp only [hi, hr, Bool.not_true, hprctl]
  rfl

/-- `Start` on an initialized, paused session whose `prctl` succeeds. -/
theorem Start_paused_ok (os : OS) (now : Int) (s : Sys)
    (hprctl : ∀ tr, os.Prctl tr = none)
    (hi : s.initialized = true) (hr : s.running = false) :
    Start os now s = (Except.ok (),
      { s with
        trace := s.trace ++ [Call.Prctl PR_TASK_PERF_EVENTS_ENABLE 0 0 0 0]
        start := now
        running := true }) := by
  unfold Start
  rw [if_neg (by simp [hr])]
  simp [hi, andThen, hprctl]

/-! ### The loop of `readCounters` -/

/-- What `readCounters` leaves alone, whether it returns or panics. -/
theorem readLoop_frame (os : OS) :
    ∀ (n i : Nat) (s : Sys),
      (readLoop os n i s).2.Counters = s.Counters ∧
      (readLoop os n i s).2.initialized = s.initialized ∧
      (readLoop os n i s).2.running = s.running ∧
      (readLoop os n i s).2.total = s.total ∧
      (readLoop os n i s).2.start = s.start ∧
      (readLoop os n i s).2.out = s.out ∧
      (readLoop os n i s).2.items.length = s.items.length := by
  intro n
  induction n with
  | zero => intro i s; simp [readLoop]
  | succ n ih =>
    intro i s
    unfold readLoop
    split
    · exact ih (i + 1) s
    · dsimp only
      split
      · simp
      · rename_i rd f _
        split
        · simp
        · have := ih (i + 1)
            { s with
              trace := s.trace ++ [Call.Read (s.items.getD i default).fd 64]
              items := s.items.set i (readItem (s.items.getD i default) f) }
          simpa using this

/-- Iterations `i .. i+n-1` touch no item outside that range. -/
theorem readLoop_getD (os : OS) :
    ∀ (n i : Nat) (s : Sys) (j : Nat), (j < i ∨ i + n ≤ j) →
      (readLoop os n i s).2.items.getD j default = s.items.getD j default := by
  intro n
  induction n with
  | zero => intro i s j _; simp [readLoop]
  | succ n ih =>
    intro i s j hj
    unfold readLoop
    split
    · exact ih (i + 1) s j (by omega)
    · dsimp only
      split
      · rfl
      · rename_i rd f _
        split
        · rfl
        · rw [ih (i + 1) _ j (by omega)]
          exact getD_set_ne _ _ _ _ _ (by omega)

/-- The loop over `a + b` indices is the loop over the first `a` followed by
the loop over the next `b`. -/
theorem readLoop_add (os : OS) (b : Nat) :
    ∀ (a i : Nat) (s : Sys),
      readLoop os (a + b) i s = andThen (readLoop os a i s) (readLoop os b (i + a)) := by
  intro a
  induction a with
  | zero => intro i s; simp [readLoop, andThen]
  | succ a ih =>
    intro i s
    have hab : a + 1 + b = (a + b) + 1 := by omega
    have hia : i + (a + 1) = i + 1 + a := by omega
    rw [hab, hia]
    unfold readLoop
    split
    · exact ih (i + 1) s
    · dsimp only
      split
      · rfl
      · rename_i rd f _
        split
        · rfl
        · exact ih (i + 1) _

/-- The item of an enabled counter after `readCounters`: when the reads of
the counters before `i` succeed and the read for `i` delivers the full record
`f`, `items[i]` is its old value transformed by `readItem`, whatever happens at
the later indices. -/
theorem readCounters_item (os : OS) (s : Sys) (i : Nat) (f : readFormat)
    (hi : i < s.items.length) (hen : (s.Counters.getD i default).Enabled = true)
    (hpre : (readLoop os i 0 s).1 = Except.ok ())
    (hrd : os.Read ((readLoop os i 0 s).2.trace ++ [Call.Read (s.items.getD i default).fd 64]) =
      Except.ok (24, f)) :
    (readCounters os s).2.items.getD i default = readItem (s.items.getD i default) f := by
  obtain ⟨hC, _, _, _, _, _, hlen⟩ := readLoop_frame os i 0 s
  have hit : (readLoop os i 0 s).2.items.getD i default = s.items.getD i default :=
    readLoop_getD os i 0 s i (by omega)
  have hsplit : s.items.length = i + ((s.items.length - i - 1) + 1) := by omega
  have hpre2 : readLoop os i 0 s = (Except.ok (), (readLoop os i 0 s).2) := Prod.ext hpre rfl
  unfold readCounters
  rw [hsplit, readLoop_add, hpre2]
  simp only [andThen, zero_add]
  unfold readLoop
  rw [hC, hen]
  simp only [Bool.not_true, Bool.false_eq_true, if_false, hit, hrd, ne_eq, not_true_eq_false]
  rw [readLoop_getD os _ (i + 1) _ i (by omega)]
  exact getD_set_eq _ _ _ _ (by omega)

/-- A read that succeeds with a byte count other than 24 makes `readCounters`
panic at that index, with only the read added to the trace. -/
theorem readCounters_wrong_size (os : OS) (s : Sys) (i : Nat) (rd : Int) (f : readFormat)
    (hi : i < s.items.length) (hen : (s.Counters.getD i default).Enabled = true)
    (hpre : (readLoop os i 0 s).1 = Except.ok ())
    (hrd : os.Read ((readLoop os i 0 s).2.trace ++ [Call.Read (s.items.getD i default).fd 64]) =
      Except.ok (rd, f))
    (hne : rd ≠ 24) :
    readCounters os s = (Except.error panicVal.readLess,
      { (readLoop os i 0 s).2 with
        trace := (readLoop os i 0 s).2.trace ++ [Call.Read (s.items.getD i default).fd 64] }) := by
  obtain ⟨hC, _, _, _, _, _, hlen⟩ := readLoop_frame os i 0 s
  have hit : (readLoop os i 0 s).2.items.getD i default = s.items.getD i default :=
    readLoop_getD os i 0 s i (by omega)
  have hsplit : s.items.length = i + ((s.items.length - i - 1) + 1) := by omega
  have hpre2 : readLoop os i 0 s = (Except.ok (), (readLoop os i 0 s).2) := Prod.ext hpre rfl
  unfold readCounters
  rw [hsplit, readLoop_add, hpre2]
  simp only [andThen, zero_add]
  generalize (readLoop os i 0 s).2 = sI at hC hit hrd ⊢
  unfold readLoop
  rw [hC, hen]
  simp only [Bool.not_true, Bool.false_eq_true, if_false, hit, hrd, ne_eq, hne, not_false_eq_true,
    if_true]

/-! ### Arrays as lists -/

theorem getD_set_proj {α β : Type} (g : α → β) (l : List α) (i : Nat) (a d : α)
    (h : g a = g (l.getD i d)) (j : Nat) :
    g ((l.set i a).getD j d) = g (l.getD j d) := by
  by_cases hij : i = j
  · subst hij
    by_cases hi : i < l.length
    · rw [getD_set_eq _ _ _ _ hi, h]
    · rw [List.set_eq_of_length_le (by omega)]
  · rw [getD_set_ne _ _ _ _ _ hij]

theorem range_filter_map {α β : Type} (p : α → Bool) (f : α → β) (d : α) :
    ∀ l : List α,
      ((List.range l.length).filter (fun i => p (l.getD i d))).map (fun i => f (l.getD i d)) =
        (l.filter p).map f := by
  intro l
  induction l with
  | nil => simp
  | cons a l ih =>
    rw [List.length_cons, List.range_succ_eq_map, List.filter_cons]
    simp only [List.getD_cons_zero, List.filter_map, List.map_map]
    by_cases hp : p a = true
    · simp only [hp, if_true, List.map_cons, List.getD_cons_zero, List.filter_cons]
      congr 1
      rw [← ih, List.map_map]
      rfl
    · simp only [hp, if_false, List.filter_cons, Bool.false_eq_true]
      rw [← ih, List.map_map]
      rfl

theorem clearLoop_length (cs : List counter) :
    ∀ (n i : Nat) (its : List item), (clearLoop cs n i its).length = its.length := by
  intro n
  induction n with
  | zero => intro i its; rfl
  | succ n ih => intro i its; rw [clearLoop, ih, List.length_set]

theorem clearLoop_getD (cs : List counter) :
    ∀ (n i : Nat) (its : List item) (j : Nat), j < its.length →
      (clearLoop cs n i its).getD j default =
        if i ≤ j ∧ j < i + n then ⟨cs.getD j default, 0, 0, -1⟩ else its.getD j default := by
  intro n
  induction n with
  | zero =>
    intro i its j _
    have h : ¬ (i ≤ j ∧ j < i + 0) := by omega
    rw [if_neg h]
    rfl
  | succ n ih =>
    intro i its j hj
    rw [clearLoop, ih (i + 1) _ j (by simpa using hj)]
    by_cases hij : i = j
    · subst hij
      rw [getD_set_eq _ _ _ _ hj]
      simp
    · rw [getD_set_ne _ _ _ _ _ hij]
      have h1 : (i + 1 ≤ j ∧ j < i + 1 + n) ↔ (i ≤ j ∧ j < i + (n + 1)) := by omega
      simp only [h1]

/-! ### What each function leaves alone -/

theorem closeLoop_frame :
    ∀ (n i : Nat) (s : Sys),
      (closeLoop n i s).Counters = s.Counters ∧
      (closeLoop n i s).initialized = s.initialized ∧
      (closeLoop n i s).running = s.running ∧
      (closeLoop n i s).total = s.total ∧
      (closeLoop n i s).start = s.start ∧
      (closeLoop n i s).out = s.out ∧
      (closeLoop n i s).items = s.items := by
  intro n
  induction n with
  | zero => intro i s; simp [closeLoop]
  | succ n ih =>
    intro i s
    unfold closeLoop
    split
    · simpa using ih (i + 1) { s with trace := s.trace ++ [Call.Close (s.items.getD i default).fd] }
    · exact ih (i + 1) s

theorem printLoop_frame :
    ∀ (n i : Nat) (s : Sys),
      (printLoop n i s).Counters = s.Counters ∧
      (printLoop n i s).initialized = s.initialized ∧
      (printLoop n i s).running = s.running ∧
      (printLoop n i s).total = s.total ∧
      (printLoop n i s).start = s.start ∧
      (printLoop n i s).trace = s.trace ∧
      (printLoop n i s).items = s.items := by
  intro n
  induction n with
  | zero => intro i s; simp [printLoop]
  | succ n ih =>
    intro i s
    unfold printLoop
    split
    · simpa using ih (i + 1)
        { s with out := s.out ++ [Row.counter (s.items.getD i default).event.Name
            (s.items.getD i default).value ((s.items.getD i default).active * 100)] }
    · exact ih (i + 1) s

/-- `Pause` never touches the catalog, the items, `initialized` or the printed
lines, and never sets `running`. -/
theorem Pause_frame (os : OS) (now : Int) (s : Sys) :
    (Pause os now s).2.Counters = s.Counters ∧
    (Pause os now s).2.initialized = s.initialized ∧
    (Pause os now s).2.items = s.items ∧
    (Pause os now s).2.out = s.out ∧
    ((Pause os now s).2.running = true → s.running = true) ∧
    ((Pause os now s).1 = Except.ok () → (Pause os now s).2.running = false) := by
  unfold Pause
  by_cases hi : s.initialized = true
  · by_cases hr : s.running = true
    · cases hp : os.Prctl (s.trace ++ [Call.Prctl PR_TASK_PERF_EVENTS_DISABLE 0 0 0 0]) <;>
        simp [hi, hr, hp]
    · simp [hi, hr]
  · simp [hi]

/-- Storing a flag in one entry leaves the names of the catalog as they are. -/
theorem map_Name_set_flag (v : Bool) :
    ∀ (cs : List counter) (j : Nat),
      (cs.set j { cs.getD j default with Enabled := v }).map (fun c => c.Name) =
        cs.map (fun c => c.Name) := by
  intro cs
  induction cs with
  | nil => intro j; simp
  | cons c cs ih =>
    intro j
    cases j with
    | zero => simp
    | succ j =>
      rw [List.set_cons_succ, List.getD_cons_succ, List.map_cons, List.map_cons, ih j]

theorem enableLoop_names (name : String) (v : Bool) :
    ∀ (n i : Nat) (cs cs1 : List counter), enableLoop name v n i cs = some cs1 →
      cs1.map (fun c => c.Name) = cs.map (fun c => c.Name) := by
  intro n
  induction n with
  | zero => intro i cs cs1 h; simp [enableLoop] at h
  | succ n ih =>
    intro i cs cs1 h
    unfold enableLoop at h
    split at h
    · cases h
      exact map_Name_set_flag v cs i
    · exact ih (i + 1) cs cs1 h

/-- `Enable` and `Disable` change the catalog only, and not its names. -/
theorem Enable_frame (name : String) (s : Sys) :
    ((Enable name s).2.Counters.map fun c => c.Name) = (s.Counters.map fun c => c.Name) ∧
    (Enable name s).2.initialized = s.initialized ∧
    (Enable name s).2.running = s.running ∧
    (Enable name s).2.items = s.items := by
  unfold Enable
  cases h : enableLoop name true s.Counters.length 0 s.Counters with
  | none => simp
  | some cs => exact ⟨enableLoop_names name true _ _ _ _ h, rfl, rfl, rfl⟩

theorem Disable_frame (name : String) (s : Sys) :
    ((Disable name s).2.Counters.map fun c => c.Name) = (s.Counters.map fun c => c.Name) ∧
    (Disable name s).2.initialized = s.initialized ∧
    (Disable name s).2.running = s.running ∧
    (Disable name s).2.items = s.items := by
  unfold Disable
  cases h : enableLoop name false s.Counters.length 0 s.Counters with
  | none => simp
  | some cs => exact ⟨enableLoop_names name false _ _ _ _ h, rfl, rfl, rfl⟩

/-- `Start` never touches the catalog; it leaves `running` set only together
with `initialized`. -/
theorem Start_frame (os : OS) (now : Int) (s : Sys) :
    (Start os now s).2.Counters = s.Counters ∧
    ((s.running = true → s.initialized = true) →
      (Start os now s).2.running = true → (Start os now s).2.initialized = true) := by
  unfold Start
  by_cases hr : s.running = true
  · simp [hr]
  · have hr2 : s.running = false := by simpa using hr
    rw [if_neg hr]
    by_cases hi : s.initialized = true
    · cases hp : os.Prctl (s.trace ++ [Call.Prctl PR_TASK_PERF_EVENTS_ENABLE 0 0 0 0]) <;>
        simp [hi, andThen, hp]
    · have hi2 : s.initialized = false := by simpa using hi
      obtain ⟨hC, _, hrn, _, _, _, _⟩ := setLoop_frame os (clear s).items.length 0 (clear s)
      have hC2 : (set os (clear s)).2.Counters = s.Counters := hC
      have hrn2 : (set os (clear s)).2.running = false := hrn
      simp only [hi2, Bool.not_false, if_true]
      rcases hset : set os (clear s) with ⟨r, s1⟩
      rw [hset] at hC2 hrn2
      simp only at hC2 hrn2
      cases r with
      | error e => simpa [andThen] using ⟨hC2, fun _ h => by simp_all⟩
      | ok u =>
        cases hp : os.Prctl (s1.trace ++ [Call.Prctl PR_TASK_PERF_EVENTS_ENABLE 0 0 0 0]) <;>
          simp [andThen, hp, hC2]

/-- `End` never touches the catalog; it leaves `running` set only together
with `initialized`. -/
theorem End_frame (os : OS) (now : Int) (s : Sys) :
    (End os now s).2.Counters = s.Counters ∧
    ((s.running = true → s.initialized = true) →
      (End os now s).2.running = true → (End os now s).2.initialized = true) := by
  unfold End
  by_cases hi : s.initialized = true
  · obtain ⟨hPC, hPi, _, _, _, _⟩ := Pause_frame os now s
    simp only [hi, Bool.not_true, Bool.false_eq_true, if_false]
    rcases hP : Pause os now s with ⟨r, s1⟩
    rw [hP] at hPC hPi
    simp only at hPC hPi
    cases r with
    | error e => simp [andThen, hPC, hPi, hi]
    | ok u =>
      obtain ⟨hRC, hRi, _, _, _, _, _⟩ := readLoop_frame os s1.items.length 0 s1
      have hRC2 : (readCounters os s1).2.Counters = s1.Counters := hRC
      have hRi2 : (readCounters os s1).2.initialized = s1.initialized := hRi
      simp only [andThen]
      rcases hR : readCounters os s1 with ⟨r2, s2⟩
      rw [hR] at hRC2 hRi2
      simp only at hRC2 hRi2
      cases r2 with
      | error e => simp [hRC2, hRi2, hPC, hPi, hi]
      | ok u2 =>
        simp only [clear]
        refine ⟨?_, by simp⟩
        rw [(printLoop_frame _ _ _).1]
        simp only
        rw [(closeLoop_frame _ _ _).1, hRC2, hPC]
  · simp [hi]

/-- The lines `End` prints for the counters: one per index whose catalog entry
is enabled, in increasing order of the index. -/
theorem printLoop_out :
    ∀ (n i : Nat) (s : Sys),
      (printLoop n i s).out = s.out ++
        ((List.range' i n).filter fun k => (s.Counters.getD k default).Enabled).map fun k =>
          Row.counter (s.items.getD k default).event.Name (s.items.getD k default).value
            ((s.items.getD k default).active * 100) := by
  intro n
  induction n with
  | zero => intro i s; simp [printLoop]
  | succ n ih =>
    intro i s
    unfold printLoop
    rw [List.range'_succ, List.filter_cons]
    by_cases h : (s.Counters.getD i default).Enabled = true
    · simp only [h, if_true]
      rw [ih]
      simp
    · simp only [h, if_false, Bool.false_eq_true]
      rw [ih]

theorem readItem_event_fd (it : item) (f : readFormat) :
    (readItem it f).event = it.event ∧ (readItem it f).fd = it.fd := by
  unfold readItem
  split <;> exact ⟨rfl, rfl⟩

/-- A read keeps the `event` and the `fd` of every item. -/
theorem readLoop_event_fd (os : OS) :
    ∀ (n i : Nat) (s : Sys) (j : Nat),
      ((readLoop os n i s).2.items.getD j default).event = (s.items.getD j default).event ∧
      ((readLoop os n i s).2.items.getD j default).fd = (s.items.getD j default).fd := by
  intro n
  induction n with
  | zero => intro i s j; simp [readLoop]
  | succ n ih =>
    intro i s j
    unfold readLoop
    split
    · exact ih (i + 1) s j
    · dsimp only
      split
      · exact ⟨rfl, rfl⟩
      · rename_i rd f _
        split
        · exact ⟨rfl, rfl⟩
        · obtain ⟨h1, h2⟩ := ih (i + 1)
            { s with
              trace := s.trace ++ [Call.Read (s.items.getD i default).fd 64]
              items := s.items.set i (readItem (s.items.getD i default) f) } j
          rw [h1, h2]
          constructor
          · exact getD_set_proj (fun it : item => it.event) s.items i _ default
              (readItem_event_fd _ f).1 j
          · exact getD_set_proj (fun it : item => it.fd) s.items i _ default
              (readItem_event_fd _ f).2 j

/-- A call of `End` that returns went through `Pause` and `readCounters`
returning, then the closes, the printing and `clear`. -/
theorem End_ok (os : OS) (now : Int) (s s1 : Sys) (h : End os now s = (Except.ok (), s1)) :
    s.initialized = true ∧
    ∃ s2 s3, Pause os now s = (Except.ok (), s2) ∧ readCounters os s2 = (Except.ok (), s3) ∧
      s1 = clear (printLoop (closeLoop s3.items.length 0 s3).items.length 0
        { closeLoop s3.items.length 0 s3 with
          out := (closeLoop s3.items.length 0 s3).out ++
            [Row.header, Row.rule,
              Row.time (((closeLoop s3.items.length 0 s3).total : ℚ) / 1000000000)] }) := by
  unfold End at h
  by_cases hi : s.initialized = true
  · refine ⟨hi, ?_⟩
    simp only [hi, Bool.not_true, Bool.false_eq_true, if_false, andThen] at h
    rcases hP : Pause os now s with ⟨r, s2⟩
    rw [hP] at h
    cases r with
    | error e => simp at h
    | ok u =>
      simp only at h
      rcases hR : readCounters os s2 with ⟨r2, s3⟩
      rw [hR] at h
      cases r2 with
      | error e => simp at h
      | ok u2 =>
        simp only [Prod.mk.injEq, true_and] at h
        exact ⟨s2, s3, rfl, hR, h.symm⟩
  · simp [hi] at h

theorem namesAgree_getD (s : Sys) (h : namesAgree s) (k : Nat) :
    (s.items.getD k default).event.Name = (s.Counters.getD k default).Name := by
  have h1 := congrArg (fun l : List String => l.getD k "") h
  simp only at h1
  have e1 : (s.items.map fun it => it.event.Name).getD k "" =
      (s.items.getD k default).event.Name :=
    List.getD_map s.items default (fun it : item => it.event.Name)
  have e2 : (s.Counters.map fun c => c.Name).getD k "" = (s.Counters.getD k default).Name :=
    List.getD_map s.Counters default (fun c : counter => c.Name)
  rw [← e1, ← e2]
  exact h1

theorem namesAgree_length (s : Sys) (h : namesAgree s) : s.items.length = s.Counters.length := by
  have h1 := congrArg List.length h
  simpa using h1

/-! ### The loop of `set` -/

/-- The loop over `a + b` indices is the loop over the first `a` followed by
the loop over the next `b`. -/
theorem setLoop_add (os : OS) (b : Nat) :
    ∀ (a i : Nat) (s : Sys),
      setLoop os (a + b) i s = andThen (setLoop os a i s) (setLoop os b (i + a)) := by
  intro a
  induction a with
  | zero => intro i s; simp [setLoop, andThen]
  | succ a ih =>
    intro i s
    have hab : a + 1 + b = (a + b) + 1 := by omega
    have hia : i + (a + 1) = i + 1 + a := by omega
    rw [hab, hia]
    unfold setLoop
    split
    · exact ih (i + 1) s
    · dsimp only
      split
      · rfl
      · exact ih (i + 1) _

/-- Arming stores handles only: `event`, `value` and `active` of every item
stay. -/
theorem setLoop_fields (os : OS) :
    ∀ (n i : Nat) (s : Sys) (j : Nat),
      ((setLoop os n i s).2.items.getD j default).event = (s.items.getD j default).event ∧
      ((setLoop os n i s).2.items.getD j default).value = (s.items.getD j default).value ∧
      ((setLoop os n i s).2.items.getD j default).active = (s.items.getD j default).active := by
  intro n
  induction n with
  | zero => intro i s j; simp [setLoop]
  | succ n ih =>
    intro i s j
    unfold setLoop
    split
    · exact ih (i + 1) s j
    · dsimp only
      split
      · exact ⟨rfl, rfl, rfl⟩
      · rename_i fd _
        obtain ⟨h1, h2, h3⟩ := ih (i + 1)
          { s with
            trace := s.trace ++ [Call.PerfEventOpen
              { Type_ := (s.items.getD i default).event.Type_
                Size := 0
                Config := (s.items.getD i default).event.Config
                Read_format := PERF_FORMAT_TOTAL_TIME_RUNNING ||| PERF_FORMAT_TOTAL_TIME_ENABLED
                Bits := 3 } 0 (-1) (-1) PERF_FLAG_FD_CLOEXEC]
            items := s.items.set i { s.items.getD i default with fd := fd } } j
        rw [h1, h2, h3]
        exact ⟨getD_set_proj (fun it : item => it.event) s.items i
            { s.items.getD i default with fd := fd } default rfl j,
          getD_set_proj (fun it : item => it.value) s.items i
            { s.items.getD i default with fd := fd } default rfl j,
          getD_set_proj (fun it : item => it.active) s.items i
            { s.items.getD i default with fd := fd } default rfl j⟩

/-- Iterations `i .. i+n-1` of arming leave the items outside that range, and
the items of the entries that are not enabled, as they are. -/
theorem setLoop_getD (os : OS) :
    ∀ (n i : Nat) (s : Sys) (j : Nat),
      (j < i ∨ i + n ≤ j ∨ (s.Counters.getD j default).Enabled = false) →
      (setLoop os n i s).2.items.getD j default = s.items.getD j default := by
  intro n
  induction n with
  | zero => intro i s j _; simp [setLoop]
  | succ n ih =>
    intro i s j hj
    unfold setLoop
    split
    · rename_i hdis
      refine ih (i + 1) s j ?_
      rcases hj with h | h | h
      · exact Or.inl (by omega)
      · exact Or.inr (Or.inl (by omega))
      · exact Or.inr (Or.inr h)
    · rename_i hen
      dsimp only
      split
      · rfl
      · rename_i fd _
        have hne : i ≠ j := by
          intro hij
          subst hij
          rcases hj with h | h | h
          · omega
          · omega
          · rw [h] at hen
            exact hen rfl
        rw [ih (i + 1) _ j (by
          rcases hj with h | h | h
          · exact Or.inl (by omega)
          · exact Or.inr (Or.inl (by omega))
          · exact Or.inr (Or.inr h))]
        exact getD_set_ne _ _ _ _ _ hne

theorem armTrace_take_succ (cs : List counter) (a : Nat) (h : a < cs.length) :
    armTrace (cs.take (a + 1)) =
      armTrace (cs.take a) ++
        (if (cs.getD a default).Enabled = true then [openCall (cs.getD a default)] else []) := by
  have hg : cs.getD a default = cs[a] := List.getD_eq_getElem cs default h
  rw [hg, List.take_succ, List.getElem?_eq_getElem h]
  unfold armTrace
  by_cases he : cs[a].Enabled = true
  · simp only [Option.toList, List.filter_append, List.map_append, List.filter_cons, he, if_true,
      List.filter_nil, List.map_cons, List.map_nil]
  · simp only [Option.toList, List.filter_append, List.map_append, List.filter_cons, he, if_false,
      List.filter_nil, List.map_nil, Bool.false_eq_true]

/-- The first `a` iterations of arming, when they return: the trace has grown
by the open requests of the enabled entries among the first `a`, and the item
of each such entry holds the handle the operating system answered to the
history ending with its request. -/
theorem setLoop_prefix (os : OS) :
    ∀ (a : Nat) (s : Sys), a ≤ s.Counters.length → a ≤ s.items.length →
      (∀ j, (s.items.getD j default).event = s.Counters.getD j default) →
      (setLoop os a 0 s).1 = Except.ok () →
      (setLoop os a 0 s).2.trace = s.trace ++ armTrace (s.Counters.take a) ∧
      ∀ j, j < a → (s.Counters.getD j default).Enabled = true →
        os.PerfEventOpen (s.trace ++ armTrace (s.Counters.take j) ++
            [openCall (s.Counters.getD j default)]) =
          Except.ok ((setLoop os a 0 s).2.items.getD j default).fd := by
  intro a
  induction a with
  | zero =>
    intro s _ _ _ _
    exact ⟨by simp [setLoop, armTrace], fun j hj => by omega⟩
  | succ a ih =>
    intro s hC hI hev hok
    rw [setLoop_add os 1 a 0 s] at hok ⊢
    obtain ⟨hfC, _, _, _, _, _, hfl⟩ := setLoop_frame os a 0 s
    have hfe := fun j => (setLoop_fields os a 0 s j).1
    obtain ⟨ihT, ihF⟩ := ih s (by omega) (by omega) hev (by
      rcases hA : setLoop os a 0 s with ⟨r, sa⟩
      rw [hA] at hok
      cases r with
      | error e => simp [andThen] at hok
      | ok u => rfl)
    rcases hA : setLoop os a 0 s with ⟨r, sa⟩
    rw [hA] at hok hfC hfl hfe ihT ihF
    simp only at hfC hfl hfe ihT ihF
    cases r with
    | error e => simp [andThen] at hok
    | ok u =>
      simp only [andThen, zero_add] at hok ⊢
      have hta := armTrace_take_succ s.Counters a (by omega)
      have hea : (sa.items.getD a default).event = s.Counters.getD a default := by
        rw [hfe a, hev a]
      unfold setLoop at hok ⊢
      by_cases hen : (s.Counters.getD a default).Enabled = true
      · rw [hfC, hen] at hok ⊢
        simp only [Bool.not_true, Bool.false_eq_true, if_false] at hok ⊢
        rw [hea] at hok ⊢
        have hcall : Call.PerfEventOpen
            { Type_ := (s.Counters.getD a default).Type_
              Size := 0
              Config := (s.Counters.getD a default).Config
              Read_format := PERF_FORMAT_TOTAL_TIME_RUNNING ||| PERF_FORMAT_TOTAL_TIME_ENABLED
              Bits := 3 } 0 (-1) (-1) PERF_FLAG_FD_CLOEXEC = openCall (s.Counters.getD a default) := rfl
        rw [hcall, ihT] at hok ⊢
        cases hrep : os.PerfEventOpen (s.trace ++ armTrace (List.take a s.Counters) ++
            [openCall (s.Counters.getD a default)]) with
        | error e => rw [hrep] at hok; simp at hok
        | ok fd =>
          simp only [setLoop]
          refine ⟨by rw [hta, if_pos hen, List.append_assoc], ?_⟩
          intro j hj hjen
          by_cases hja : j = a
          · subst hja
            rw [getD_set_eq _ _ _ _ (by omega)]
            exact hrep
          · rw [getD_set_ne _ _ _ _ _ (fun h => hja h.symm)]
            exact ihF j (by omega) hjen
      · have hen2 : (s.Counters.getD a default).Enabled = false := by simpa using hen
        rw [hfC, hen2] at hok ⊢
        simp only [Bool.not_false, if_true, setLoop] at hok ⊢
        refine ⟨by rw [hta, if_neg hen, List.append_nil]; exact ihT, ?_⟩
        intro j hj hjen
        have hja : j ≠ a := fun h => by rw [h, hen2] at hjen; cases hjen
        exact ihF j (by omega) hjen

/-- Every call keeps the names of the catalog and the invariant that
`running` is set only together with `initialized`. -/
theorem step_invariant (os : OS) (op : Op) (s : Sys) :
    ((step os op s).2.Counters.map fun c => c.Name) = (s.Counters.map fun c => c.Name) ∧
    ((s.running = true → s.initialized = true) →
      (step os op s).2.running = true → (step os op s).2.initialized = true) := by
  cases op with
  | Enable name =>
    obtain ⟨h1, h2, h3, _⟩ := Enable_frame name s
    exact ⟨h1, fun h hr => by rw [step, h2]; rw [step, h3] at hr; exact h hr⟩
  | Disable name =>
    obtain ⟨h1, h2, h3, _⟩ := Disable_frame name s
    exact ⟨h1, fun h hr => by rw [step, h2]; rw [step, h3] at hr; exact h hr⟩
  | Start now =>
    obtain ⟨h1, h2⟩ := Start_frame os now s
    exact ⟨by rw [step, h1], h2⟩
  | Pause now =>
    obtain ⟨h1, h2, _, _, h5, _⟩ := Pause_frame os now s
    exact ⟨by rw [step, h1], fun h hr => by rw [step, h2]; exact h (h5 hr)⟩
  | End now =>
    obtain ⟨h1, h2⟩ := End_frame os now s
    exact ⟨by rw [step, h1], h2⟩

theorem run_invariant (os : OS) :
    ∀ (ops : List Op) (s : Sys),
      ((run os ops s).Counters.map fun c => c.Name) = (s.Counters.map fun c => c.Name) ∧
      ((s.running = true → s.initialized = true) →
        (run os ops s).running = true → (run os ops s).initialized = true) := by
  intro ops
  induction ops with
  | nil => intro s; exact ⟨rfl, fun h => h⟩
  | cons op ops ih =>
    intro s
    obtain ⟨h1, h2⟩ := step_invariant os op s
    obtain ⟨h3, h4⟩ := ih (step os op s).2
    exact ⟨by rw [run, h3, h1], fun h => h4 (h2 h)⟩

/-! ### The items carry the names of the catalog -/

theorem map_eq_of_getD {α β : Type} (f : α → β) (d : α) (l1 l2 : List α)
    (hl : l1.length = l2.length) (h : ∀ j, j < l1.length → f (l1.getD j d) = f (l2.getD j d)) :
    l1.map f = l2.map f := by
  apply List.ext_getElem
  · simp [hl]
  · intro j h1 h2
    have hj1 : j < l1.length := by simpa using h1
    have hj2 : j < l2.length := by simpa using h2
    rw [List.getElem_map, List.getElem_map, ← List.getD_eq_getElem l1 d hj1,
      ← List.getD_eq_getElem l2 d hj2]
    exact h j hj1

/-- After `clear` every item carries its catalog entry. -/
theorem namesAgree_clear (s : Sys) (hl : s.items.length = s.Counters.length) :
    namesAgree (clear s) := by
  unfold namesAgree
  apply List.ext_getElem
  · simp only [clear, List.length_map, clearLoop_length]
    exact hl
  · intro j h1 h2
    have hj1 : j < (clear s).items.length := by simpa using h1
    have hj2 : j < s.Counters.length := by simpa [clear] using h2
    have hj3 : j < s.items.length := by omega
    rw [List.getElem_map, List.getElem_map, ← List.getD_eq_getElem _ default hj1]
    simp only [clear]
    rw [clearLoop_getD _ _ _ _ _ hj3, if_pos (by omega), List.getD_eq_getElem _ default hj2]

/-- Agreement of names depends on the names of the items and of the catalog
only. -/
theorem namesAgree_congr (s t : Sys)
    (hi : (t.items.map fun it => it.event.Name) = (s.items.map fun it => it.event.Name))
    (hc : (t.Counters.map fun c => c.Name) = (s.Counters.map fun c => c.Name))
    (h : namesAgree s) : namesAgree t := by
  unfold namesAgree at h ⊢
  rw [hi, hc]
  exact h

theorem setLoop_names (os : OS) (n i : Nat) (s : Sys) :
    ((setLoop os n i s).2.items.map fun it => it.event.Name) =
      (s.items.map fun it => it.event.Name) :=
  map_eq_of_getD (fun it : item => it.event.Name) default _ _ (setLoop_frame os n i s).2.2.2.2.2.2
    (fun j _ => by show (_ : item).event.Name = _; rw [(setLoop_fields os n i s j).1])

theorem readLoop_names (os : OS) (n i : Nat) (s : Sys) :
    ((readLoop os n i s).2.items.map fun it => it.event.Name) =
      (s.items.map fun it => it.event.Name) :=
  map_eq_of_getD (fun it : item => it.event.Name) default _ _ (readLoop_frame os n i s).2.2.2.2.2.2
    (fun j _ => by show (_ : item).event.Name = _; rw [(readLoop_event_fd os n i s j).1])

/-- `Start` keeps the two arrays at one length and, where it leaves the
session initialized, the items carry the names of the catalog. -/
theorem Start_namesAgree (os : OS) (now : Int) (s : Sys)
    (hl : s.items.length = s.Counters.length) (hn : s.initialized = true → namesAgree s) :
    (Start os now s).2.items.length = (Start os now s).2.Counters.length ∧
    ((Start os now s).2.initialized = true → namesAgree (Start os now s).2) := by
  unfold Start
  by_cases hr : s.running = true
  · simp only [hr, if_true]
    exact ⟨hl, hn⟩
  · rw [if_neg hr]
    by_cases hi : s.initialized = true
    · cases hp : os.Prctl (s.trace ++ [Call.Prctl PR_TASK_PERF_EVENTS_ENABLE 0 0 0 0]) <;>
        simp only [hi, Bool.not_true, Bool.false_eq_true, if_false, andThen, hp] <;>
        exact ⟨hl, fun _ => namesAgree_congr s _ rfl rfl (hn hi)⟩
    · have hi2 : s.initialized = false := by simpa using hi
      obtain ⟨hC, _, _, _, _, _, hL⟩ := setLoop_frame os (clear s).items.length 0 (clear s)
      have hN := setLoop_names os (clear s).items.length 0 (clear s)
      have hcl : (clear s).items.length = s.items.length := by
        simp only [clear]; rw [clearLoop_length]
      have hA : namesAgree (set os (clear s)).2 :=
        namesAgree_congr (clear s) _ hN (by rw [show (set os (clear s)).2.Counters = _ from hC])
          (namesAgree_clear s hl)
      have hLen : (set os (clear s)).2.items.length = (set os (clear s)).2.Counters.length := by
        rw [show (set os (clear s)).2.items.length = _ from hL,
          show (set os (clear s)).2.Counters = _ from hC, hcl]
        exact hl
      simp only [hi2, Bool.not_false, if_true]
      rcases hset : set os (clear s) with ⟨r, s1⟩
      rw [hset] at hA hLen
      simp only at hA hLen
      cases r with
      | error e =>
        simp only [andThen]
        exact ⟨hLen, fun _ => hA⟩
      | ok u =>
        cases hp : os.Prctl (s1.trace ++ [Call.Prctl PR_TASK_PERF_EVENTS_ENABLE 0 0 0 0]) <;>
          simp only [andThen, hp] <;>
          exact ⟨hLen, fun _ => namesAgree_congr s1 _ rfl rfl hA⟩

theorem Pause_namesAgree (os : OS) (now : Int) (s : Sys)
    (hl : s.items.length = s.Counters.length) (hn : s.initialized = true → namesAgree s) :
    (Pause os now s).2.items.length = (Pause os now s).2.Counters.length ∧
    ((Pause os now s).2.initialized = true → namesAgree (Pause os now s).2) := by
  obtain ⟨hC, hI, hit, _, _, _⟩ := Pause_frame os now s
  refine ⟨by rw [hit, hC]; exact hl, fun h => ?_⟩
  rw [hI] at h
  exact namesAgree_congr s _ (by rw [hit]) (by rw [hC]) (hn h)

theorem End_namesAgree (os : OS) (now : Int) (s : Sys)
    (hl : s.items.length = s.Counters.length) (hn : s.initialized = true → namesAgree s) :
    (End os now s).2.items.length = (End os now s).2.Counters.length ∧
    ((End os now s).2.initialized = true → namesAgree (End os now s).2) := by
  have hPn := Pause_namesAgree os now s hl hn
  unfold End
  by_cases hi : s.initialized = true
  · simp only [hi, Bool.not_true, Bool.false_eq_true, if_false, andThen]
    rcases hP : Pause os now s with ⟨r, s1⟩
    rw [hP] at hPn
    simp only at hPn
    cases r with
    | error e => exact hPn
    | ok u =>
      simp only
      obtain ⟨hRC, hRi, _, _, _, _, hRl⟩ := readLoop_frame os s1.items.length 0 s1
      have hRn := readLoop_names os s1.items.length 0 s1
      have e1 : (readCounters os s1).2.Counters = s1.Counters := hRC
      have e2 : (readCounters os s1).2.initialized = s1.initialized := hRi
      have e3 : (readCounters os s1).2.items.length = s1.items.length := hRl
      have e4 : ((readCounters os s1).2.items.map fun it => it.event.Name) =
          (s1.items.map fun it => it.event.Name) := hRn
      rcases hR : readCounters os s1 with ⟨r2, s2⟩
      rw [hR] at e1 e2 e3 e4
      simp only at e1 e2 e3 e4
      cases r2 with
      | error e =>
        simp only
        refine ⟨by rw [e3, e1]; exact hPn.1, fun h => ?_⟩
        rw [e2] at h
        exact namesAgree_congr s1 _ e4 (by rw [e1]) (hPn.2 h)
      | ok u2 =>
        simp only
        refine ⟨?_, fun h => by simp [clear] at h⟩
        simp only [clear]
        rw [clearLoop_length, (printLoop_frame _ _ _).2.2.2.2.2.2, (printLoop_frame _ _ _).1]
        simp only
        rw [(closeLoop_frame _ _ _).2.2.2.2.2.2, (closeLoop_frame _ _ _).1, e3, e1]
        exact hPn.1
  · have hi2 : s.initialized = false := by simpa using hi
    rw [if_pos (by simp [hi2])]
    exact ⟨hl, hn⟩

/-- In every state reached from the initial one the two arrays have one
length and, when the session is initialized, the items carry the names of the
catalog. -/
theorem run_namesAgree (os : OS) :
    ∀ (ops : List Op) (s : Sys),
      s.items.length = s.Counters.length → (s.initialized = true → namesAgree s) →
      (run os ops s).items.length = (run os ops s).Counters.length ∧
      ((run os ops s).initialized = true → namesAgree (run os ops s)) := by
  intro ops
  induction ops with
  | nil => intro s hl hn; exact ⟨hl, hn⟩
  | cons op ops ih =>
    intro s hl hn
    have hstep : (step os op s).2.items.length = (step os op s).2.Counters.length ∧
        ((step os op s).2.initialized = true → namesAgree (step os op s).2) := by
      cases op with
      | Enable name =>
        obtain ⟨h1, h2, _, h4⟩ := Enable_frame name s
        have hlen := congrArg List.length h1
        simp only [List.length_map] at hlen
        refine ⟨by rw [step, h4, hlen]; exact hl, fun h => ?_⟩
        rw [step, h2] at h
        exact namesAgree_congr s _ (by rw [step, h4]) h1 (hn h)
      | Disable name =>
        obtain ⟨h1, h2, _, h4⟩ := Disable_frame name s
        have hlen := congrArg List.length h1
        simp only [List.length_map] at hlen
        refine ⟨by rw [step, h4, hlen]; exact hl, fun h => ?_⟩
        rw [step, h2] at h
        exact namesAgree_congr s _ (by rw [step, h4]) h1 (hn h)
      | Start now => exact Start_namesAgree os now s hl hn
      | Pause now => exact Pause_namesAgree os now s hl hn
      | End now => exact End_namesAgree os now s hl hn
    exact ih (step os op s).2 hstep.1 hstep.2

/-! ### `perf.go` against `goperf.go` -/

/-- `Enable` and `Disable` are the same functions in the two files. -/
theorem Perf_Enable_Disable_eq : Perf.Enable = Enable ∧ Perf.Disable = Disable :=
  ⟨rfl, rfl⟩

/-- On a session that is not running the two `Start` agree. -/
theorem Perf_Start_eq (os : OS) (now : Int) (s : Sys) (h : s.running = false) :
    Perf.Start os now s = Start os now s := by
  have hr : ¬ s.running = true := by simp [h]
  unfold Start
  rw [if_neg hr]
  rfl

/-- On an initialized session the two `Pause` and the two `End` agree; on an
uninitialized one all four panic and leave the state as it is, with different
panic values. -/
theorem Perf_Pause_End_eq (os : OS) (now : Int) (s : Sys) :
    (s.initialized = true →
      Perf.Pause os now s = Pause os now s ∧ Perf.End os now s = End os now s) ∧
    (s.initialized = false →
      Perf.Pause os now s = (Except.error (panicVal.flag false), s) ∧
      Pause os now s = (Except.error panicVal.callStartFirst, s) ∧
      Perf.End os now s = (Except.error (panicVal.flag false), s) ∧
      End os now s = (Except.error panicVal.callStartFirst, s)) := by
  constructor
  · intro h
    have hP : ∀ t : Sys, t.initialized = true → Perf.Pause os now t = Pause os now t := by
      intro t ht
      unfold Perf.Pause Pause
      simp only [ht, Bool.not_true, Bool.false_eq_true, if_false]
    refine ⟨hP s h, ?_⟩
    unfold Perf.End End
    simp only [h, Bool.not_true, Bool.false_eq_true, if_false, hP s h]
    rfl
  · intro h
    simp [Perf.Pause, Pause, Perf.End, End, h]

/-- C2: the packing `cache` does not keep the operation and the result apart.
The triples (L1D, READ, MISS) and (L1D, WRITE, ACCESS) differ, both pack to
`65536`, and the catalog entries "L1D-read-miss" (index 20) and
"L1D-write-access" (index 21), both of type `PERF_TYPE_HW_CACHE`, carry that
same `Config`: the triple cannot be recovered from it. -/
theorem cache_read_miss_eq_write_access :
    (pL1D, pREAD, pMISS) ≠ (pL1D, pWRITE, pACCESS) ∧
    cache pL1D pREAD pMISS = 65536 ∧ cache pL1D pWRITE pACCESS = 65536 ∧
    Counters.get? 20 = some ⟨"L1D-read-miss", PERF_TYPE_HW_CACHE, cache pL1D pREAD pMISS, true⟩ ∧
    Counters.get? 21 = some ⟨"L1D-write-access", PERF_TYPE_HW_CACHE, cache pL1D pWRITE pACCESS, false⟩ ∧
    (Counters.getD 20 default).Name ≠ (Counters.getD 21 default).Name ∧
    (Counters.getD 20 default).Config = (Counters.getD 21 default).Config := by
  decide

/-- C4: `Start` on a running session panics with "Already started" and
returns the state it was given: `total`, `start`, `running`, `initialized`,
the catalog and the items are unchanged and no call is added to the trace. -/
theorem Start_running_panics (os : OS) (now : Int) (s : Sys) (h : s.running = true) :
    Start os now s = (Except.error panicVal.alreadyStarted, s) := by
  simp [Start, h]

theorem Start_running_panics_witness :
    runningSys.running = true ∧
    Start okOS 7 runningSys = (Except.error panicVal.alreadyStarted, runningSys) :=
  ⟨by decide, Start_running_panics okOS 7 runningSys (by decide)⟩

/-- C7: `End` on an uninitialized session panics with "call Start() first"
and returns the state it was given: no call is added to the trace, nothing is
printed, no variable changes. -/
theorem End_uninitialized_panics (os : OS) (now : Int) (s : Sys) (h : s.initialized = false) :
    End os now s = (Except.error panicVal.callStartFirst, s) := by
  simp [End, h]

theorem End_uninitialized_panics_witness :
    initSys.initialized = false ∧
    End okOS 7 initSys = (Except.error panicVal.callStartFirst, initSys) :=
  ⟨by decide, End_uninitialized_panics okOS 7 initSys (by decide)⟩

/-- C9: `Pause` on an uninitialized session panics with "call Start() first"
instead of returning, and returns the state it was given: no call is added to
the trace and no variable changes. -/
theorem Pause_uninitialized_panics (os : OS) (now : Int) (s : Sys) (h : s.initialized = false) :
    Pause os now s = (Except.error panicVal.callStartFirst, s) := by
  simp [Pause, h]

theorem Pause_uninitialized_panics_witness :
    initSys.initialized = false ∧
    Pause okOS 7 initSys = (Except.error panicVal.callStartFirst, initSys) :=
  ⟨by decide, Pause_uninitialized_panics okOS 7 initSys (by decide)⟩

/-- C5: when no catalog entry carries the name, `Enable` and `Disable` both
panic with the unknown-counter error and return the state they were given, so
every entry of the catalog keeps its `Name`, `Type`, `Config` and `Enabled`. -/
theorem Enable_Disable_unknown (name : String) (s : Sys)
    (h : ∀ c ∈ s.Counters, c.Name ≠ name) :
    Enable name s = (Except.error (panicVal.unknownCounter name), s) ∧
    Disable name s = (Except.error (panicVal.unknownCounter name), s) := by
  have ht := enableLoop_none name true s.Counters.length 0 s.Counters (by omega) h
  have hf := enableLoop_none name false s.Counters.length 0 s.Counters (by omega) h
  simp [Enable, Disable, ht, hf]

theorem Enable_Disable_unknown_witness :
    (∀ c ∈ initSys.Counters, c.Name ≠ "no-such-counter") ∧
    Enable "no-such-counter" initSys =
      (Except.error (panicVal.unknownCounter "no-such-counter"), initSys) ∧
    Disable "no-such-counter" initSys =
      (Except.error (panicVal.unknownCounter "no-such-counter"), initSys) :=
  ⟨by decide, Enable_Disable_unknown "no-such-counter" initSys (by decide)⟩

/-- C6: when some catalog entry carries the name, let `i` be the first index
that does. `Enable` returns normally and the new state is the old one with
`Counters[i].Enabled` set to `true` and nothing else changed; `Disable` does
the same with `false`; and a second `Enable` (`Disable`) returns normally and
leaves the state reached by the first as it is. -/
theorem Enable_Disable_known (name : String) (s : Sys)
    (h : ∃ c ∈ s.Counters, c.Name = name) :
    ∃ i, i < s.Counters.length ∧ (s.Counters.getD i default).Name = name ∧
      (∀ k, k < i → (s.Counters.getD k default).Name ≠ name) ∧
      Enable name s = (Except.ok (),
        { s with Counters := s.Counters.set i { s.Counters.getD i default with Enabled := true } }) ∧
      Disable name s = (Except.ok (),
        { s with Counters := s.Counters.set i { s.Counters.getD i default with Enabled := false } }) ∧
      Enable name (Enable name s).2 = (Except.ok (), (Enable name s).2) ∧
      Disable name (Disable name s).2 = (Except.ok (), (Disable name s).2) := by
  obtain ⟨i, hi, hname, hmin⟩ := exists_first_index name s.Counters h
  have key : ∀ v : Bool, enableLoop name v s.Counters.length 0 s.Counters =
      some (s.Counters.set i { s.Counters.getD i default with Enabled := v }) := fun v =>
    enableLoop_first name v s.Counters.length 0 s.Counters i (by omega) (by omega) hi hname
      (fun k _ hk => hmin k hk)
  have key2 : ∀ v : Bool,
      enableLoop name v (s.Counters.set i { s.Counters.getD i default with Enabled := v }).length 0
        (s.Counters.set i { s.Counters.getD i default with Enabled := v }) =
      some (s.Counters.set i { s.Counters.getD i default with Enabled := v }) := by
    intro v
    have := enableLoop_first name v
      (s.Counters.set i { s.Counters.getD i default with Enabled := v }).length 0
      (s.Counters.set i { s.Counters.getD i default with Enabled := v }) i (by omega)
      (by omega) (by simpa using hi)
      (by rw [getD_set_flag_Name]; exact hname)
      (fun k _ hk => by rw [getD_set_flag_Name]; exact hmin k hk)
    rw [this, set_flag_idem]
  have hE : Enable name s = (Except.ok (),
      { s with Counters := s.Counters.set i { s.Counters.getD i default with Enabled := true } }) := by
    simp only [Enable, key true]
  have hD : Disable name s = (Except.ok (),
      { s with Counters := s.Counters.set i { s.Counters.getD i default with Enabled := false } }) := by
    simp only [Disable, key false]
  refine ⟨i, hi, hname, hmin, hE, hD, ?_, ?_⟩
  · rw [hE]
    simp only [Enable, key2 true]
  · rw [hD]
    simp only [Disable, key2 false]

theorem Enable_Disable_known_witness :
    (∃ c ∈ initSys.Counters, c.Name = "bus-cycles") ∧
    ∃ i, i < initSys.Counters.length ∧ (initSys.Counters.getD i default).Name = "bus-cycles" ∧
      (∀ k, k < i → (initSys.Counters.getD k default).Name ≠ "bus-cycles") ∧
      Enable "bus-cycles" initSys = (Except.ok (),
        { initSys with Counters :=
            initSys.Counters.set i { initSys.Counters.getD i default with Enabled := true } }) ∧
      Disable "bus-cycles" initSys = (Except.ok (),
        { initSys with Counters :=
            initSys.Counters.set i { initSys.Counters.getD i default with Enabled := false } }) ∧
      Enable "bus-cycles" (Enable "bus-cycles" initSys).2 =
        (Except.ok (), (Enable "bus-cycles" initSys).2) ∧
      Disable "bus-cycles" (Disable "bus-cycles" initSys).2 =
        (Except.ok (), (Disable "bus-cycles" initSys).2) :=
  ⟨by decide, Enable_Disable_known "bus-cycles" initSys (by decide)⟩

/-- C8: on an initialized session, `Pause` followed by `Pause` gives the
result and the state of a single `Pause`; and when the first call returns, the
second returns normally with the state unchanged, so it adds no call to the
trace and changes neither `total` nor `running`. -/
theorem Pause_Pause (os : OS) (t1 t2 : Int) (s : Sys) (h : s.initialized = true) :
    andThen (Pause os t1 s) (Pause os t2) = Pause os t1 s ∧
    ((Pause os t1 s).1 = Except.ok () →
      Pause os t2 (Pause os t1 s).2 = (Except.ok (), (Pause os t1 s).2)) := by
  by_cases hr : s.running = true
  · cases hp : os.Prctl (s.trace ++ [Call.Prctl PR_TASK_PERF_EVENTS_DISABLE 0 0 0 0]) with
    | none => simp [Pause, andThen, h, hr, hp]
    | some e => simp [Pause, andThen, h, hr, hp]
  · simp [Pause, andThen, h, hr]

theorem Pause_Pause_witness :
    runningSys.initialized = true ∧
    andThen (Pause okOS 5 runningSys) (Pause okOS 9) = Pause okOS 5 runningSys ∧
    ((Pause okOS 5 runningSys).1 = Except.ok () →
      Pause okOS 9 (Pause okOS 5 runningSys).2 = (Except.ok (), (Pause okOS 5 runningSys).2)) :=
  ⟨by decide, Pause_Pause okOS 5 9 runningSys (by decide)⟩

/-- C3: on an uninitialized session, with every open and every `prctl`
succeeding, `Start` at `t0`, `Pause` at `t1`, `Start` at `t2` and `Pause` at
`t3` all return, and `total` is then `(t1 - t0) + (t3 - t2)`, whatever the gap
`t2 - t1`. The instants are ordered and the whole span `t3 - t0` fits a
`time.Duration`. -/
theorem total_after_start_pause_start_pause (os : OS) (s : Sys) (t0 t1 t2 t3 : Int)
    (hopen : ∀ tr, ∃ fd, os.PerfEventOpen tr = Except.ok fd)
    (hprctl : ∀ tr, os.Prctl tr = none)
    (hi : s.initialized = false) (hr : s.running = false)
    (h01 : t0 ≤ t1) (h12 : t1 ≤ t2) (h23 : t2 ≤ t3) (hspan : t3 - t0 ≤ maxDuration) :
    ∃ s1 s2 s3 s4,
      Start os t0 s = (Except.ok (), s1) ∧ Pause os t1 s1 = (Except.ok (), s2) ∧
      Start os t2 s2 = (Except.ok (), s3) ∧ Pause os t3 s3 = (Except.ok (), s4) ∧
      s4.total = (t1 - t0) + (t3 - t2) := by
  obtain ⟨_, _, _, hft, _, _, _⟩ := setLoop_frame os (clear s).items.length 0 (clear s)
  have htot : (set os (clear s)).2.total = 0 := hft
  have hmax : (0 : Int) ≤ maxDuration := by unfold maxDuration; omega
  have hmin : minDuration ≤ 0 := by unfold minDuration; omega
  have e1 : timeSub t1 t0 = t1 - t0 := timeSub_of_range t1 t0 (by omega) (by omega)
  have e2 : timeSub t3 t2 = t3 - t2 := timeSub_of_range t3 t2 (by omega) (by omega)
  have w1 : wrap64 (0 + (t1 - t0)) = t1 - t0 := by
    rw [zero_add]; exact wrap64_of_range _ (by omega) (by omega)
  have w2 : wrap64 (t1 - t0 + (t3 - t2)) = t1 - t0 + (t3 - t2) :=
    wrap64_of_range _ (by omega) (by omega)
  refine ⟨_, _, _, _, Start_uninitialized_ok os t0 s hopen hprctl hi hr,
    Pause_running_ok os t1 _ hprctl rfl rfl, Start_paused_ok os t2 _ hprctl rfl rfl,
    Pause_running_ok os t3 _ hprctl rfl rfl, ?_⟩
  simp only [htot, e1, e2, w1, w2]

theorem total_after_start_pause_start_pause_witness :
    ∃ s1 s2 s3 s4,
      Start okOS 0 initSys = (Except.ok (), s1) ∧
      Pause okOS 5000000000 s1 = (Except.ok (), s2) ∧
      Start okOS 10000000000 s2 = (Except.ok (), s3) ∧
      Pause okOS 12000000000 s3 = (Except.ok (), s4) ∧
      s4.total = (5000000000 - 0) + (12000000000 - 10000000000) :=
  total_after_start_pause_start_pause okOS initSys 0 5000000000 10000000000 12000000000
    (fun tr => ⟨_, rfl⟩) (fun _ => rfl) rfl rfl (by decide) (by decide) (by decide) (by decide)

/-- C1: the code at the record `count=1000, timeEnabled=100, timeRunning=50`.
On the paused session `pausedSys`, whose entry 9 is the enabled counter
"cpu-cycles" with accumulated value `0`, `readCounters` receives that record
for it from `okOS` and leaves the value at `0`: the scale it uses is the
`uint64` quotient `50 / 100 = 0`, so it adds `0`, not `500`. -/
theorem readCounters_half_scheduled :
    pausedSys.Counters.get? 9 = some ⟨"cpu-cycles", PERF_TYPE_HARDWARE, PERF_COUNT_HW_CPU_CYCLES, true⟩ ∧
    (pausedSys.items.getD 9 default).value = 0 ∧
    okOS.Read ((readLoop okOS 9 0 pausedSys).2.trace ++
      [Call.Read (pausedSys.items.getD 9 default).fd 64]) = Except.ok (24, ⟨1000, 100, 50⟩) ∧
    readScale ⟨1000, 100, 50⟩ = 0 ∧
    ((readCounters okOS pausedSys).2.items.getD 9 default).value = 0 := by
  refine ⟨by decide, by decide, rfl, by simp [readScale], ?_⟩
  rw [readCounters_item okOS pausedSys 9 ⟨1000, 100, 50⟩ (by decide) (by decide) rfl rfl]
  have h0 : (pausedSys.items.getD 9 default).value = 0 := by decide
  have hs : readScale ⟨1000, 100, 50⟩ = 0 := by simp [readScale]
  simp only [readItem, hs, mul_zero, add_zero]
  split <;> exact h0

/-- C10: when the record read for an enabled counter has `timeEnabled = 0`,
the scale `n` of `readCounters` is `1` and the counter's accumulated value
after `readCounters` is its old value plus the raw count. The record `f` is
the one the read for index `i` delivers, the reads before it having
succeeded. -/
theorem readCounters_timeEnabled_zero (os : OS) (s : Sys) (i : Nat) (f : readFormat)
    (hi : i < s.items.length) (hen : (s.Counters.getD i default).Enabled = true)
    (hpre : (readLoop os i 0 s).1 = Except.ok ())
    (hrd : os.Read ((readLoop os i 0 s).2.trace ++ [Call.Read (s.items.getD i default).fd 64]) =
      Except.ok (24, f))
    (h0 : f.timeEnabled = 0) :
    readScale f = 1 ∧
    ((readCounters os s).2.items.getD i default).value =
      (s.items.getD i default).value + (f.value : ℚ) := by
  have hs : readScale f = 1 := by simp [readScale, h0]
  rw [readCounters_item os s i f hi hen hpre hrd]
  simp [readItem, hs, h0]

theorem readCounters_timeEnabled_zero_witness :
    readScale ⟨1000, 0, 0⟩ = 1 ∧
    ((readCounters idleOS pausedSys).2.items.getD 9 default).value =
      (pausedSys.items.getD 9 default).value + ((1000 : Nat) : ℚ) :=
  readCounters_timeEnabled_zero idleOS pausedSys 9 ⟨1000, 0, 0⟩ (by decide) (by decide) rfl rfl rfl

/-- C11, as stated, fails: on the paused session `pausedSys` the read for the
enabled counter "cpu-cycles" (index 9) delivers the full record `count=1000,
timeEnabled=0, timeRunning=0` from `idleOS`; the scale used is `1`, and the
counter's `active` after `readCounters` is still `0`. -/
theorem readCounters_active_ne_scale :
    (pausedSys.Counters.getD 9 default).Enabled = true ∧
    idleOS.Read ((readLoop idleOS 9 0 pausedSys).2.trace ++
      [Call.Read (pausedSys.items.getD 9 default).fd 64]) = Except.ok (24, ⟨1000, 0, 0⟩) ∧
    readScale ⟨1000, 0, 0⟩ = 1 ∧
    ((readCounters idleOS pausedSys).2.items.getD 9 default).active = 0 ∧
    ((readCounters idleOS pausedSys).2.items.getD 9 default).active ≠ readScale ⟨1000, 0, 0⟩ := by
  have hs : readScale ⟨1000, 0, 0⟩ = 1 := by simp [readScale]
  have h0 : (pausedSys.items.getD 9 default).active = 0 := by decide
  have ha : ((readCounters idleOS pausedSys).2.items.getD 9 default).active = 0 := by
    rw [readCounters_item idleOS pausedSys 9 ⟨1000, 0, 0⟩ (by decide) (by decide) rfl rfl]
    simp only [readItem, lt_self_iff_false, false_and, if_false]
    exact h0
  refine ⟨by decide, rfl, hs, ha, ?_⟩
  rw [ha, hs]
  norm_num

/-- C11, amended: when the record read for an enabled counter has both times
positive, the counter's `active` after `readCounters` is the scale that
weighted the raw count; when `timeEnabled = 0` or `timeRunning = 0` the scale
is `1` and `active` is what it was before the read. -/
theorem readCounters_active (os : OS) (s : Sys) (i : Nat) (f : readFormat)
    (hi : i < s.items.length) (hen : (s.Counters.getD i default).Enabled = true)
    (hpre : (readLoop os i 0 s).1 = Except.ok ())
    (hrd : os.Read ((readLoop os i 0 s).2.trace ++ [Call.Read (s.items.getD i default).fd 64]) =
      Except.ok (24, f)) :
    (0 < f.timeEnabled ∧ 0 < f.timeRunning →
      ((readCounters os s).2.items.getD i default).active = readScale f) ∧
    (f.timeEnabled = 0 ∨ f.timeRunning = 0 →
      readScale f = 1 ∧
      ((readCounters os s).2.items.getD i default).active = (s.items.getD i default).active) := by
  rw [readCounters_item os s i f hi hen hpre hrd]
  constructor
  · intro h
    have h2 : f.timeEnabled > 0 ∧ f.timeRunning > 0 := h
    simp only [readItem, h2, and_self, if_true]
  · intro h
    have h2 : ¬ (f.timeEnabled > 0 ∧ f.timeRunning > 0) := by omega
    simp only [readItem, readScale, h2, if_false, and_self]

theorem readCounters_active_witness :
    (0 < 100 ∧ 0 < 50 →
      ((readCounters okOS pausedSys).2.items.getD 9 default).active = readScale ⟨1000, 100, 50⟩) ∧
    ((100 : Nat) = 0 ∨ (50 : Nat) = 0 →
      readScale ⟨1000, 100, 50⟩ = 1 ∧
      ((readCounters okOS pausedSys).2.items.getD 9 default).active =
        (pausedSys.items.getD 9 default).active) :=
  readCounters_active okOS pausedSys 9 ⟨1000, 100, 50⟩ (by decide) (by decide) rfl rfl

/-- C12: when the read for an enabled counter succeeds with fewer than 24
bytes, `readCounters` panics with "read less than expected" and `items[i]`,
so its `value` and its `active`, is what it was before `readCounters`. -/
theorem readCounters_short_read (os : OS) (s : Sys) (i : Nat) (rd : Int) (f : readFormat)
    (hi : i < s.items.length) (hen : (s.Counters.getD i default).Enabled = true)
    (hpre : (readLoop os i 0 s).1 = Except.ok ())
    (hrd : os.Read ((readLoop os i 0 s).2.trace ++ [Call.Read (s.items.getD i default).fd 64]) =
      Except.ok (rd, f))
    (hlt : rd < 24) :
    (readCounters os s).1 = Except.error panicVal.readLess ∧
    (readCounters os s).2.items.getD i default = s.items.getD i default := by
  rw [readCounters_wrong_size os s i rd f hi hen hpre hrd (by omega)]
  exact ⟨rfl, readLoop_getD os i 0 s i (by omega)⟩

theorem readCounters_short_read_witness :
    (readCounters shortOS pausedSys).1 = Except.error panicVal.readLess ∧
    (readCounters shortOS pausedSys).2.items.getD 9 default = pausedSys.items.getD 9 default :=
  readCounters_short_read shortOS pausedSys 9 16 ⟨1000, 100, 0⟩ (by decide) (by decide)
    rfl rfl (by decide)

/-- C15: `Start` on an initialized, paused session whose enable directive
succeeds returns normally, and the state it leaves is the given one with that
one `prctl` added to the trace, `start` set to the clock reading and `running`
set: no open is issued, and the items (their `fd`, `value`, `active`), `total`
and the catalog are unchanged. -/
theorem Start_resume (os : OS) (now : Int) (s : Sys)
    (hi : s.initialized = true) (hr : s.running = false)
    (hp : os.Prctl (s.trace ++ [Call.Prctl PR_TASK_PERF_EVENTS_ENABLE 0 0 0 0]) = none) :
    Start os now s = (Except.ok (),
      { s with
        trace := s.trace ++ [Call.Prctl PR_TASK_PERF_EVENTS_ENABLE 0 0 0 0]
        start := now
        running := true }) := by
  unfold Start
  rw [if_neg (by simp [hr])]
  simp [hi, andThen, hp]

theorem Start_resume_witness :
    pausedSys.initialized = true ∧ pausedSys.running = false ∧
    Start okOS 10000000000 pausedSys = (Except.ok (),
      { pausedSys with
        trace := pausedSys.trace ++ [Call.Prctl PR_TASK_PERF_EVENTS_ENABLE 0 0 0 0]
        start := 10000000000
        running := true }) :=
  ⟨by decide, by decide, Start_resume okOS 10000000000 pausedSys (by decide) (by decide) rfl⟩

/-- C19: for a record with `0 < timeRunning ≤ timeEnabled` read for an enabled
counter, the scale of `readCounters` is `1` when the two times are equal and
`0` when `timeRunning` is smaller, and the accumulated value grows by the raw
count in the first case and by nothing in the second; `perf.go` gives the same
state. -/
theorem readCounters_scale_zero_or_one (os : OS) (s : Sys) (i : Nat) (f : readFormat)
    (hi : i < s.items.length) (hen : (s.Counters.getD i default).Enabled = true)
    (hpre : (readLoop os i 0 s).1 = Except.ok ())
    (hrd : os.Read ((readLoop os i 0 s).2.trace ++ [Call.Read (s.items.getD i default).fd 64]) =
      Except.ok (24, f))
    (hpos : 0 < f.timeRunning) (hle : f.timeRunning ≤ f.timeEnabled) :
    (f.timeRunning = f.timeEnabled →
      readScale f = 1 ∧
      ((readCounters os s).2.items.getD i default).value =
        (s.items.getD i default).value + (f.value : ℚ)) ∧
    (f.timeRunning < f.timeEnabled →
      readScale f = 0 ∧
      ((readCounters os s).2.items.getD i default).value = (s.items.getD i default).value) ∧
    Perf.readCounters os s = readCounters os s := by
  have hc : f.timeEnabled > 0 ∧ f.timeRunning > 0 := ⟨by omega, hpos⟩
  rw [readCounters_item os s i f hi hen hpre hrd]
  refine ⟨?_, ?_, rfl⟩
  · intro h
    have hs : readScale f = 1 := by
      simp only [readScale, hc, and_self, if_true, h]
      rw [Nat.div_self (by omega)]
      norm_num
    simp [readItem, hs, hc]
  · intro h
    have hs : readScale f = 0 := by
      simp only [readScale, hc, and_self, if_true]
      rw [Nat.div_eq_of_lt h]
      norm_num
    simp [readItem, hs, hc]

theorem readCounters_scale_zero_or_one_witness :
    ((50 : Nat) = 100 →
      readScale ⟨1000, 100, 50⟩ = 1 ∧
      ((readCounters okOS pausedSys).2.items.getD 9 default).value =
        (pausedSys.items.getD 9 default).value + ((1000 : Nat) : ℚ)) ∧
    ((50 : Nat) < 100 →
      readScale ⟨1000, 100, 50⟩ = 0 ∧
      ((readCounters okOS pausedSys).2.items.getD 9 default).value =
        (pausedSys.items.getD 9 default).value) ∧
    Perf.readCounters okOS pausedSys = readCounters okOS pausedSys :=
  readCounters_scale_zero_or_one okOS pausedSys 9 ⟨1000, 100, 50⟩ (by decide) (by decide) rfl rfl
    (by decide) (by decide)

/-- C16: the names of the catalog as declared are pairwise distinct, in
`goperf.go` and in `perf.go`, and after any sequence of calls of the exported
functions (of `Enable` and `Disable` in particular) the catalog carries the
same names in the same order, so they are still pairwise distinct. -/
theorem Counters_names_nodup (os : OS) (ops : List Op) :
    (Counters.map fun c => c.Name).Nodup ∧
    (Perf.counters.map fun c => c.Name).Nodup ∧
    ((run os ops initSys).Counters.map fun c => c.Name) = (Counters.map fun c => c.Name) ∧
    ((run os ops initSys).Counters.map fun c => c.Name).Nodup := by
  have h1 : (Counters.map fun c => c.Name).Nodup := by decide
  have h2 : (Perf.counters.map fun c => c.Name).Nodup := by decide
  have h3 := (run_invariant os ops initSys).1
  exact ⟨h1, h2, h3, by rw [h3]; exact h1⟩

/-- C17: in every state reached from a state with `running = false` (the
initial state, where `initialized = false` too, is one) by a sequence of calls
of `Enable`, `Disable`, `Start`, `Pause` and `End`, whatever the operating
system answers and whether the calls return or panic, `running = true` implies
`initialized = true`. -/
theorem running_implies_initialized (os : OS) (ops : List Op) (s : Sys)
    (hr : s.running = false) :
    (run os ops s).running = true → (run os ops s).initialized = true :=
  (run_invariant os ops s).2 (fun h => by rw [hr] at h; cases h)

theorem running_implies_initialized_witness :
    initSys.initialized = false ∧ initSys.running = false ∧
    (run okOS [Op.Start 0, Op.Pause 5, Op.Enable "bus-cycles", Op.Start 7] initSys).running = true ∧
    (run okOS [Op.Start 0, Op.Pause 5, Op.Enable "bus-cycles", Op.Start 7] initSys).initialized =
      true :=
  ⟨rfl, rfl, by decide, running_implies_initialized okOS
    [Op.Start 0, Op.Pause 5, Op.Enable "bus-cycles", Op.Start 7] initSys rfl (by decide)⟩

/-- C13: when `End` returns, `initialized` and `running` are false, `total` is
`0`, every item has `value = 0`, `active = 0` and `fd = -1`, and the catalog,
the `Enabled` flags included, is what it was before the call. -/
theorem End_resets (os : OS) (now : Int) (s s1 : Sys) (h : End os now s = (Except.ok (), s1)) :
    s1.initialized = false ∧ s1.running = false ∧ s1.total = 0 ∧
    s1.Counters = s.Counters ∧ s1.items.length = s.items.length ∧
    ∀ i, i < s.items.length →
      (s1.items.getD i default).value = 0 ∧ (s1.items.getD i default).active = 0 ∧
      (s1.items.getD i default).fd = -1 := by
  obtain ⟨_, s2, s3, hP, hR, rfl⟩ := End_ok os now s s1 h
  obtain ⟨hPC, _, hPit, _, _, _⟩ := Pause_frame os now s
  rw [hP] at hPC hPit
  simp only at hPC hPit
  obtain ⟨hRC, _, _, _, _, _, hRlen⟩ := readLoop_frame os s2.items.length 0 s2
  have hRC2 : (readCounters os s2).2.Counters = s2.Counters := hRC
  have hRlen2 : (readCounters os s2).2.items.length = s2.items.length := hRlen
  rw [hR] at hRC2 hRlen2
  simp only at hRC2 hRlen2
  have hlen : s3.items.length = s.items.length := by rw [hRlen2, hPit]
  refine ⟨rfl, rfl, rfl, ?_, ?_, ?_⟩
  · simp only [clear]
    rw [(printLoop_frame _ _ _).1]
    simp only
    rw [(closeLoop_frame _ _ _).1, hRC2, hPC]
  · simp only [clear]
    rw [clearLoop_length, (printLoop_frame _ _ _).2.2.2.2.2.2]
    simp only
    rw [(closeLoop_frame _ _ _).2.2.2.2.2.2, hlen]
  · intro i hi
    simp only [clear]
    rw [clearLoop_getD _ _ _ _ _ (by
      rw [(printLoop_frame _ _ _).2.2.2.2.2.2]
      simp only
      rw [(closeLoop_frame _ _ _).2.2.2.2.2.2, hlen]
      exact hi)]
    rw [if_pos (by
      rw [(printLoop_frame _ _ _).2.2.2.2.2.2]
      simp only
      rw [(closeLoop_frame _ _ _).2.2.2.2.2.2, hlen]
      omega)]
    exact ⟨rfl, rfl, rfl⟩

theorem End_resets_witness :
    End fullOS 3000000000 twoSys = (Except.ok (), endedSys) ∧
    endedSys.initialized = false ∧ endedSys.running = false ∧ endedSys.total = 0 ∧
    endedSys.Counters = twoSys.Counters ∧ endedSys.items.length = twoSys.items.length ∧
    ∀ i, i < twoSys.items.length →
      (endedSys.items.getD i default).value = 0 ∧ (endedSys.items.getD i default).active = 0 ∧
      (endedSys.items.getD i default).fd = -1 :=
  ⟨Prod.ext rfl rfl, End_resets fullOS 3000000000 twoSys endedSys (Prod.ext rfl rfl)⟩

/-- C14: when `End` returns on a session whose items carry the names of the
catalog, what it has printed is the header, the rule, the elapsed-time line and
then one line per catalog entry whose `Enabled` flag is set, in catalog order,
each naming its entry, and no other line. -/
theorem End_report (os : OS) (now : Int) (s s1 : Sys) (hn : namesAgree s)
    (h : End os now s = (Except.ok (), s1)) :
    ∃ rows, s1.out = s.out ++
        [Row.header, Row.rule, Row.time (((Pause os now s).2.total : ℚ) / 1000000000)] ++ rows ∧
      rows.map Row.counterName =
        (s.Counters.filter fun c => c.Enabled).map fun c => some c.Name := by
  obtain ⟨_, s2, s3, hP, hR, rfl⟩ := End_ok os now s s1 h
  obtain ⟨hPC, _, hPit, hPout, _, _⟩ := Pause_frame os now s
  rw [hP] at hPC hPit hPout
  simp only at hPC hPit hPout
  obtain ⟨hRC, _, _, hRtot, _, hRout, hRlen⟩ := readLoop_frame os s2.items.length 0 s2
  have hRC2 : (readCounters os s2).2.Counters = s2.Counters := hRC
  have hRlen2 : (readCounters os s2).2.items.length = s2.items.length := hRlen
  have hRout2 : (readCounters os s2).2.out = s2.out := hRout
  have hRtot2 : (readCounters os s2).2.total = s2.total := hRtot
  have hRev : ∀ k, ((readCounters os s2).2.items.getD k default).event =
      (s2.items.getD k default).event := fun k => (readLoop_event_fd os _ 0 s2 k).1
  rw [hR] at hRC2 hRlen2 hRout2 hRtot2 hRev
  simp only at hRC2 hRlen2 hRout2 hRtot2 hRev
  obtain ⟨hcC, _, _, hct, _, hco, hci⟩ := closeLoop_frame s3.items.length 0 s3
  have hlen : s3.items.length = s.Counters.length := by
    rw [hRlen2, hPit]; exact namesAgree_length s hn
  have hname : ∀ k, (s3.items.getD k default).event.Name = (s.Counters.getD k default).Name := by
    intro k
    rw [hRev k, hPit]
    exact namesAgree_getD s hn k
  refine ⟨((List.range' 0 s3.items.length).filter fun k =>
      (s.Counters.getD k default).Enabled).map fun k =>
        Row.counter (s3.items.getD k default).event.Name (s3.items.getD k default).value
          ((s3.items.getD k default).active * 100), ?_, ?_⟩
  · simp only [clear]
    rw [printLoop_out]
    simp only [hci, hcC, hco, hct, hRC2, hPC, hRout2, hRtot2, hPout, hP]
  · rw [List.map_map]
    simp only [hlen, ← List.range_eq_range']
    rw [← range_filter_map (fun c : counter => c.Enabled) (fun c : counter => some c.Name) default
      s.Counters]
    apply List.map_congr_left
    intro k _
    simp only [Function.comp, Row.counterName, hname k]

theorem End_report_witness :
    namesAgree twoSys ∧ End fullOS 3000000000 twoSys = (Except.ok (), endedSys) ∧
    ((twoSys.Counters.filter fun c => c.Enabled).map fun c => some c.Name) =
      [some "cpu-cycles", some "instructions"] ∧
    ∃ rows, endedSys.out = twoSys.out ++
        [Row.header, Row.rule,
          Row.time (((Pause fullOS 3000000000 twoSys).2.total : ℚ) / 1000000000)] ++ rows ∧
      rows.map Row.counterName =
        (twoSys.Counters.filter fun c => c.Enabled).map fun c => some c.Name :=
  ⟨by decide, Prod.ext rfl rfl, by decide,
    End_report fullOS 3000000000 twoSys endedSys (by decide) (Prod.ext rfl rfl)⟩

/-- C18: when a `Start` on an uninitialized session returns, `initialized` and
`running` are set, `total` is `0`, the catalog is unchanged, the calls issued
are one open request per enabled catalog entry, in catalog order, followed by
the enable directive, and for every index `i`: the item has `value = 0`,
`active = 0` and the catalog entry as its `event`; if the entry is enabled its
`fd` is the handle the operating system answered to the history that ends with
the open request of that entry (its `Type` and `Config`); if the entry is not
enabled its `fd` is `-1`. -/
theorem Start_arms (os : OS) (now : Int) (s s1 : Sys)
    (hi : s.initialized = false) (hr : s.running = false)
    (hlen : s.items.length = s.Counters.length)
    (h : Start os now s = (Except.ok (), s1)) :
    s1.initialized = true ∧ s1.running = true ∧ s1.total = 0 ∧ s1.Counters = s.Counters ∧
    s1.trace = s.trace ++ armTrace s.Counters ++ [Call.Prctl PR_TASK_PERF_EVENTS_ENABLE 0 0 0 0] ∧
    ∀ i, i < s.Counters.length →
      (s1.items.getD i default).value = 0 ∧ (s1.items.getD i default).active = 0 ∧
      (s1.items.getD i default).event = s.Counters.getD i default ∧
      ((s.Counters.getD i default).Enabled = true →
        os.PerfEventOpen (s.trace ++ armTrace (s.Counters.take i) ++
            [openCall (s.Counters.getD i default)]) = Except.ok (s1.items.getD i default).fd) ∧
      ((s.Counters.getD i default).Enabled = false → (s1.items.getD i default).fd = -1) := by
  have hcl : ∀ j, j < s.items.length →
      (clear s).items.getD j default = ⟨s.Counters.getD j default, 0, 0, -1⟩ := by
    intro j hj
    simp only [clear]
    rw [clearLoop_getD _ _ _ _ _ hj, if_pos (by omega)]
  have hcll : (clear s).items.length = s.items.length := by
    simp only [clear]
    rw [clearLoop_length]
  have hev : ∀ j, ((clear s).items.getD j default).event = (clear s).Counters.getD j default := by
    intro j
    by_cases hj : j < s.items.length
    · rw [hcl j hj]
      rfl
    · rw [List.getD_eq_default _ _ (by omega)]
      have hd : (clear s).Counters.getD j default = default :=
        List.getD_eq_default _ _ (by show s.Counters.length ≤ j; omega)
      rw [hd]
      rfl
  obtain ⟨hfC, _, _, hft, _, _, hfl⟩ := setLoop_frame os (clear s).items.length 0 (clear s)
  unfold Start at h
  rw [if_neg (by simp [hr])] at h
  simp only [hi, Bool.not_false, if_true, set, andThen] at h
  have hpre := setLoop_prefix os (clear s).items.length (clear s)
    (by rw [hcll, hlen]; exact le_refl _) (le_refl _) hev
  have hfields := setLoop_fields os (clear s).items.length 0 (clear s)
  have hother := setLoop_getD os (clear s).items.length 0 (clear s)
  rcases hA : setLoop os (clear s).items.length 0 (clear s) with ⟨r, sa⟩
  rw [hA] at h hfC hft hfl hpre hfields hother
  simp only at hfC hft hfl hpre hfields hother
  cases r with
  | error e => simp at h
  | ok u =>
    simp only at h
    cases hp : os.Prctl (sa.trace ++ [Call.Prctl PR_TASK_PERF_EVENTS_ENABLE 0 0 0 0]) with
    | some e => rw [hp] at h; simp at h
    | none =>
      rw [hp] at h
      simp only [Prod.mk.injEq, true_and] at h
      obtain ⟨hT, hF⟩ := hpre rfl
      subst h
      have htake : List.take (clear s).items.length (clear s).Counters = s.Counters := by
        rw [hcll, hlen]
        exact List.take_length s.Counters
      refine ⟨rfl, rfl, hft, hfC, ?_, ?_⟩
      · show sa.trace ++ _ = _
        rw [hT, htake]
        rfl
      · intro i hiC
        have hiI : i < s.items.length := by omega
        obtain ⟨he, hv, ha⟩ := hfields i
        refine ⟨?_, ?_, ?_, ?_, ?_⟩
        · show (sa.items.getD i default).value = 0
          rw [hv, hcl i hiI]
        · show (sa.items.getD i default).active = 0
          rw [ha, hcl i hiI]
        · show (sa.items.getD i default).event = _
          rw [he, hcl i hiI]
        · intro hen
          exact hF i (by rw [hcll]; exact hiI) hen
        · intro hen
          show (sa.items.getD i default).fd = -1
          rw [hother i (Or.inr (Or.inr hen)), hcl i hiI]

theorem Start_arms_witness :
    initSys.initialized = false ∧ initSys.running = false ∧
    Start okOS 0 initSys = (Except.ok (), runningSys) ∧
    runningSys.initialized = true ∧ runningSys.running = true ∧ runningSys.total = 0 ∧
    runningSys.Counters = initSys.Counters ∧
    runningSys.trace = initSys.trace ++ armTrace initSys.Counters ++
      [Call.Prctl PR_TASK_PERF_EVENTS_ENABLE 0 0 0 0] ∧
    ∀ i, i < initSys.Counters.length →
      (runningSys.items.getD i default).value = 0 ∧ (runningSys.items.getD i default).active = 0 ∧
      (runningSys.items.getD i default).event = initSys.Counters.getD i default ∧
      ((initSys.Counters.getD i default).Enabled = true →
        okOS.PerfEventOpen (initSys.trace ++ armTrace (initSys.Counters.take i) ++
            [openCall (initSys.Counters.getD i default)]) =
          Except.ok (runningSys.items.getD i default).fd) ∧
      ((initSys.Counters.getD i default).Enabled = false →
        (runningSys.items.getD i default).fd = -1) :=
  ⟨rfl, rfl, Prod.ext rfl rfl,
    Start_arms okOS 0 initSys runningSys rfl rfl rfl (Prod.ext rfl rfl)⟩

/-- C20: the two files disagree on `Start` for a running session. On
`runningSys`, which is running, `Start` of `goperf.go` panics with "Already
started" and leaves the state as it is, while `Start` of `perf.go` returns
normally, issues the enable directive and overwrites `start` with the new clock
reading. -/
theorem Perf_Start_running_differs :
    runningSys.running = true ∧ runningSys.start = 0 ∧
    Start okOS 7 runningSys = (Except.error panicVal.alreadyStarted, runningSys) ∧
    Perf.Start okOS 7 runningSys = (Except.ok (),
      { runningSys with
        trace := runningSys.trace ++ [Call.Prctl PR_TASK_PERF_EVENTS_ENABLE 0 0 0 0]
        start := 7
        running := true }) ∧
    (Perf.Start okOS 7 runningSys).1 ≠ (Start okOS 7 runningSys).1 ∧
    (Perf.Start okOS 7 runningSys).2.trace ≠ (Start okOS 7 runningSys).2.trace ∧
    (Perf.Start okOS 7 runningSys).2.start ≠ (Start okOS 7 runningSys).2.start := by
  have hr : runningSys.running = true := by decide
  have hi : runningSys.initialized = true := by decide
  have hG : Start okOS 7 runningSys = (Except.error panicVal.alreadyStarted, runningSys) := by
    simp [Start, hr]
  have hP : Perf.Start okOS 7 runningSys = (Except.ok (),
      { runningSys with
        trace := runningSys.trace ++ [Call.Prctl PR_TASK_PERF_EVENTS_ENABLE 0 0 0 0]
        start := 7
        running := true }) := by
    unfold Perf.Start
    simp only [hi, Bool.not_true, Bool.false_eq_true, if_false, andThen]
    rfl
  refine ⟨hr, by decide, hG, hP, ?_, ?_, ?_⟩
  · rw [hG, hP]
    simp
  · rw [hG, hP]
    simp
  · rw [hG, hP]
    decide

/-- C21: the code on the session `Start`, `Enable "bus-cycles"`, `End` from
the initial state. On `okOS`, where every call succeeds and no open ever
answers `-1`, all three calls return; entry 15, "bus-cycles", was not enabled
at arming, so its item still holds `fd = -1` when `End` runs, and `End` issues a
read and a close of the descriptor `-1`. On `ebadfOS`, which refuses a negative
descriptor as the kernel does, that read is issued too and `End` panics with
"failed to read counters". -/
theorem End_reads_closed_sentinel :
    (initSys.Counters.getD 15 default).Name = "bus-cycles" ∧
    (initSys.Counters.getD 15 default).Enabled = false ∧
    (step okOS (Op.Start 0) initSys).1 = Except.ok () ∧
    (step okOS (Op.Enable "bus-cycles") (run okOS [Op.Start 0] initSys)).1 = Except.ok () ∧
    (step okOS (Op.End 5000000000)
      (run okOS [Op.Start 0, Op.Enable "bus-cycles"] initSys)).1 = Except.ok () ∧
    ((run okOS [Op.Start 0, Op.Enable "bus-cycles"] initSys).items.getD 15 default).fd = -1 ∧
    (∀ tr, okOS.PerfEventOpen tr ≠ Except.ok (-1)) ∧
    Call.Read (-1) 64 ∈ (run okOS lateEnableOps initSys).trace ∧
    Call.Close (-1) ∈ (run okOS lateEnableOps initSys).trace ∧
    (step ebadfOS (Op.End 5000000000)
      (run ebadfOS [Op.Start 0, Op.Enable "bus-cycles"] initSys)).1 =
        Except.error (panicVal.failedToRead 9) ∧
    Call.Read (-1) 64 ∈ (run ebadfOS lateEnableOps initSys).trace := by
  refine ⟨by decide, by decide, rfl, rfl, rfl, by decide, ?_, by decide, by decide, rfl, by decide⟩
  intro tr h
  have h2 : ((tr.length : Int) + 2) = -1 := by
    simpa [okOS] using h
  omega

end Goperf
